import Mathlib

/-!
# Stream registry and FFmpeg supervision

A shallow embedding of `internal/stream/stream.go`.

* A `*Stream` is an address (`Ptr`) into a heap of `Stream` objects, so that
  two handles on the same stream alias the same object.
* The map `StreamManager.streams` is an association list with unique keys.
* Every method holds its object's mutex for its whole body, so each method is
  modelled as one atomic step; the mutex fields are not represented.
* The logger is modelled as the log sink `Env.log`.
* The operating system is modelled by `Env`, which records the effects the
  code requests (directories, processes, cancellations, kills, goroutines),
  and by explicit outcome arguments for the calls that may fail
  (`os.MkdirAll`, `exec.Cmd.Start`, `os.Process.Kill`, `exec.Cmd.Wait`).
* `time.Now()` readings are explicit arguments.
* The library functions `filepath.Join` and `filepath.Clean` are modelled for
  slash-separated paths; `fmt.Sprintf` with `%s` and `%d` is string
  concatenation and decimal notation.
-/

namespace stream

/-- The address of a `Stream` object: the model of a non-nil `*Stream`. -/
abbrev Ptr := Nat

/-- A reading of `time.Now()`. -/
abbrev Time := Nat

/-- A Go `error`, represented by its message. -/
abbrev Error := String

/-- The fields of `exec.Cmd` the code touches. `Process` is `none` until
`Start` has succeeded. -/
structure Cmd where
  Path : String
  Args : List String
  ctx : Nat
  Stdout : Option String
  Stderr : Option String
  Process : Option Nat
  deriving DecidableEq, Repr

/-- The struct `Stream` (without `mu` and `logger`). `FFmpegCtx` and
`FFmpegCancel` hold the identifier of the cancellable context. -/
structure Stream where
  ID : String
  AppName : String
  StreamName : String
  OutputDir : String
  FFmpegCmd : Option Cmd
  FFmpegCtx : Option Nat
  FFmpegCancel : Option Nat
  IsActive : Bool
  StartTime : Time
  LastUpdate : Time
  deriving DecidableEq, Repr

/-- Everything outside the `Stream` objects that the code acts on. -/
structure Env where
  /-- Paths for which `os.MkdirAll` succeeded. -/
  mkdirs : List String
  /-- Processes launched by a successful `exec.Cmd.Start`. -/
  procs : List Cmd
  /-- Contexts whose cancel function has been called. -/
  cancelled : List Nat
  /-- Process ids on which `Process.Kill` has been called. -/
  kills : List Nat
  /-- Goroutines started by `go s.monitorFFmpeg()`, by stream address. -/
  monitors : List Ptr
  /-- Lines written to the logger: level and message. -/
  log : List (String × String)
  /-- Identifier the next `context.WithCancel` will return. -/
  nextCtx : Nat
  deriving DecidableEq, Repr

/-- The heap of `Stream` objects together with the environment. -/
structure World where
  heap : List Stream
  env : Env
  deriving DecidableEq, Repr

/-- The struct `StreamManager` (without `mu` and `logger`). -/
structure StreamManager where
  streams : AList (fun _ : String => Ptr)
  deriving DecidableEq

/-- The call `logger.Infof`. -/
def Env.Infof (e : Env) (msg : String) : Env :=
  { e with log := e.log ++ [("info", msg)] }

/-- The call `logger.Errorf`. -/
def Env.Errorf (e : Env) (msg : String) : Env :=
  { e with log := e.log ++ [("error", msg)] }

/-- `NewStreamManager`: a manager with an empty map. -/
def NewStreamManager : StreamManager :=
  { streams := ∅ }

/-- `StreamManager.CreateStream`. `t₁` and `t₂` are the two readings of
`time.Now()`; the result is the returned pointer with the new manager and
world. -/
def StreamManager.CreateStream (sm : StreamManager) (w : World)
    (appName streamName outputDir : String) (t₁ t₂ : Time) :
    Ptr × StreamManager × World :=
  let streamID := appName ++ "/" ++ streamName
  match sm.streams.lookup streamID with
  | some existing => (existing, sm, w)
  | none =>
    let stream : Stream :=
      { ID := streamID
        AppName := appName
        StreamName := streamName
        OutputDir := outputDir
        FFmpegCmd := none
        FFmpegCtx := none
        FFmpegCancel := none
        IsActive := false
        StartTime := t₁
        LastUpdate := t₂ }
    let p : Ptr := w.heap.length
    (p, { streams := sm.streams.insert streamID p },
      { heap := w.heap ++ [stream]
        env := w.env.Infof ("Created stream: " ++ streamID) })

/-- `StreamManager.GetStream`: the pair `(stream, exists)`; a nil pointer is
`none`. -/
def StreamManager.GetStream (sm : StreamManager) (streamID : String) :
    Option Ptr × Bool :=
  match sm.streams.lookup streamID with
  | some stream => (some stream, true)
  | none => (none, false)

/-- `StreamManager.ListStreams`: the loop appends every value of the map. -/
def StreamManager.ListStreams (sm : StreamManager) : List Ptr :=
  sm.streams.entries.foldl (fun streams kv => streams ++ [kv.2]) []

/-- `Stream.Stop`. `killErr` is the outcome of `Process.Kill` should the
code call it. -/
def Stream.Stop (s : Stream) (e : Env) (killErr : Option Error) : Stream × Env :=
  if !s.IsActive then (s, e)
  else
    let e₁ : Env :=
      match s.FFmpegCancel with
      | some c => { e with cancelled := e.cancelled ++ [c] }
      | none => e
    let e₂ : Env :=
      match s.FFmpegCmd with
      | some cmd =>
        match cmd.Process with
        | some pid =>
          let e₁ := { e₁ with kills := e₁.kills ++ [pid] }
          match killErr with
          | some err =>
            e₁.Errorf ("failed to kill FFmpeg process for stream " ++ s.ID ++ ": " ++ err)
          | none => e₁
        | none => e₁
      | none => e₁
    ({ s with IsActive := false }, e₂.Infof ("Stopped stream: " ++ s.ID))

/-- Splits a path at every separator `/`. -/
def splitSlash : List Char → List (List Char)
  | [] => [[]]
  | c :: cs =>
    match splitSlash cs with
    | [] => [[]]
    | seg :: segs => if c = '/' then [] :: seg :: segs else (c :: seg) :: segs

/-- The element pass of `filepath.Clean` on the elements of a path: empty
and `.` elements are dropped, `..` removes the element before it, is kept at
the front of a relative path and dropped at the root. `acc` is the output so
far, last element first. -/
def cleanSegs (rooted : Bool) : List (List Char) → List (List Char) → List (List Char)
  | acc, [] => acc.reverse
  | acc, seg :: rest =>
    if seg = [] ∨ seg = ['.'] then cleanSegs rooted acc rest
    else if seg = ['.', '.'] then
      match acc with
      | top :: acc₁ =>
        if top = ['.', '.'] then cleanSegs rooted (seg :: acc) rest
        else cleanSegs rooted acc₁ rest
      | [] => if rooted then cleanSegs rooted [] rest else cleanSegs rooted [seg] rest
    else cleanSegs rooted (seg :: acc) rest

/-- The library function `filepath.Clean` for slash-separated paths. -/
def filepathClean (path : String) : String :=
  if path = "" then "."
  else
    let rooted := path.data.head? = some '/'
    let segs := cleanSegs rooted [] (splitSlash path.data)
    let out := (if rooted then "/" else "") ++ "/".intercalate (segs.map String.mk)
    if out = "" then "." else out

/-- The library function `filepath.Join`: the elements from the first
non-empty one on are joined with `/` and cleaned; with no non-empty element
the result is empty. -/
def filepathJoin : List String → String
  | [] => ""
  | e :: rest => if e = "" then filepathJoin rest else filepathClean ("/".intercalate (e :: rest))

/-- Indexing a `map[string]string`: the zero value `""` for a missing key. -/
def mapIndex (params : List (String × String)) (key : String) : String :=
  (params.lookup key).getD ""

/-- The slice `args` that `StartFFmpeg` builds. -/
def ffmpegArgs (s : Stream) (params : List (String × String))
    (segmentDuration playlistWindow : Int) : List String :=
  let playlistPath := filepathJoin [s.OutputDir, "playlist.m3u8"]
  let segmentPattern := filepathJoin [s.OutputDir, "segment_%03d.ts"]
  [ "-i", "rtmp://localhost/live/" ++ s.StreamName,
    "-c:v", mapIndex params "video_codec",
    "-c:a", mapIndex params "audio_codec",
    "-b:v", mapIndex params "video_bitrate",
    "-b:a", mapIndex params "audio_bitrate",
    "-s", mapIndex params "resolution",
    "-r", mapIndex params "fps",
    "-f", "hls",
    "-hls_time", toString segmentDuration,
    "-hls_list_size", toString playlistWindow,
    "-hls_flags", "delete_segments",
    "-hls_segment_filename", segmentPattern,
    playlistPath ]

/-- `Stream.StartFFmpeg` on the stream at address `self`. `mkdirErr` is the
outcome of `os.MkdirAll` and `startRes` the outcome of `exec.Cmd.Start`
(an error, or the id of the new process). The first component is the
returned error, `none` for `nil`. -/
def Stream.StartFFmpeg (self : Ptr) (s : Stream) (e : Env) (ffmpegPath : String)
    (params : List (String × String)) (segmentDuration playlistWindow : Int)
    (mkdirErr : Option Error) (startRes : Except Error Nat) :
    Option Error × Stream × Env :=
  if s.IsActive then
    (some ("stream " ++ s.ID ++ " is already active"), s, e)
  else
    match mkdirErr with
    | some err => (some ("failed to create output directory: " ++ err), s, e)
    | none =>
      let e₁ : Env := { e with mkdirs := e.mkdirs ++ [s.OutputDir] }
      let args := ffmpegArgs s params segmentDuration playlistWindow
      let c := e₁.nextCtx
      let e₂ : Env := { e₁ with nextCtx := c + 1 }
      let cmd : Cmd :=
        { Path := ffmpegPath
          Args := ffmpegPath :: args
          ctx := c
          Stdout := some "os.Stdout"
          Stderr := some "os.Stderr"
          Process := none }
      let s₁ : Stream :=
        { s with FFmpegCtx := some c, FFmpegCancel := some c, FFmpegCmd := some cmd }
      match startRes with
      | .error err =>
        (some ("failed to start FFmpeg: " ++ err), s₁,
          { e₂ with cancelled := e₂.cancelled ++ [c] })
      | .ok pid =>
        let cmd₁ : Cmd := { cmd with Process := some pid }
        let s₂ : Stream := { s₁ with FFmpegCmd := some cmd₁, IsActive := true }
        let e₃ : Env := { e₂ with procs := e₂.procs ++ [cmd₁] }
        let e₄ := e₃.Infof ("Started FFmpeg for stream: " ++ s.ID)
        (none, s₂, { e₄ with monitors := e₄.monitors ++ [self] })

/-- `Stream.monitorFFmpeg`, from the moment `Wait` has returned `waitErr`
(`none` for `nil`, that is exit status zero). -/
def Stream.monitorFFmpeg (s : Stream) (e : Env) (waitErr : Option Error) : Stream × Env :=
  match waitErr with
  | some err =>
    if s.IsActive then
      ({ s with IsActive := false },
        e.Errorf ("FFmpeg process for stream " ++ s.ID ++ " exited with error: " ++ err))
    else (s, e)
  | none => (s, e)

/-- `Stream.UpdateLastActivity`, with the reading of `time.Now()`. -/
def Stream.UpdateLastActivity (s : Stream) (now : Time) : Stream :=
  { s with LastUpdate := now }

/-- A value of type `interface{}` as stored by `GetStatus`. -/
inductive Value where
  | str (v : String)
  | bool (v : Bool)
  | time (v : Time)
  deriving DecidableEq, Repr

/-- `Stream.GetStatus`: the map literal, as its list of entries. -/
def Stream.GetStatus (s : Stream) : List (String × Value) :=
  [ ("id", .str s.ID),
    ("app_name", .str s.AppName),
    ("stream_name", .str s.StreamName),
    ("is_active", .bool s.IsActive),
    ("start_time", .time s.StartTime),
    ("last_update", .time s.LastUpdate),
    ("output_dir", .str s.OutputDir) ]

/-- A method call `stream.Stop()` through a pointer. Addresses held by a
manager are always allocated; on an unallocated address the world is left
as it is. -/
def World.Stop (w : World) (p : Ptr) (killErr : Option Error) : World :=
  match w.heap[p]? with
  | some s =>
    let r := s.Stop w.env killErr
    { heap := w.heap.set p r.1, env := r.2 }
  | none => w

/-- `StreamManager.RemoveStream`. -/
def StreamManager.RemoveStream (sm : StreamManager) (w : World) (streamID : String)
    (killErr : Option Error) : StreamManager × World :=
  match sm.streams.lookup streamID with
  | some stream =>
    let w₁ := w.Stop stream killErr
    ({ streams := sm.streams.erase streamID },
      { w₁ with env := w₁.env.Infof ("Removed stream: " ++ streamID) })
  | none => (sm, w)

/-- Representation invariant of a manager in a world: every entry points to
an allocated stream whose `ID` is the entry's key. -/
def WF (sm : StreamManager) (w : World) : Prop :=
  ∀ k p, sm.streams.lookup k = some p → ∃ s, w.heap[p]? = some s ∧ s.ID = k

/-- The world before anything is allocated. -/
def World.init : World :=
  { heap := []
    env := { mkdirs := [], procs := [], cancelled := [], kills := [], monitors := []
             log := [], nextCtx := 0 } }

/-- A client that calls `CreateStream` for one `(appName, streamName)` once
per element of `calls`, each with its own output directory and clock
readings. -/
def createMany (sm : StreamManager) (w : World) (appName streamName : String) :
    List (String × Time × Time) → StreamManager × World
  | [] => (sm, w)
  | (dir, t₁, t₂) :: rest =>
    let r := sm.CreateStream w appName streamName dir t₁ t₂
    createMany r.2.1 r.2.2 appName streamName rest

/-- A client that calls `CreateStream` once per element of `calls`, each
with its own application name, stream name and output directory. -/
def createAll (sm : StreamManager) (w : World) :
    List (String × String × String) → StreamManager × World
  | [] => (sm, w)
  | (app, name, dir) :: rest =>
    let r := sm.CreateStream w app name dir 0 0
    createAll r.2.1 r.2.2 rest

/-- The registry of `TestStreamManager_ListStreams`: two streams. -/
def twoStreams : StreamManager × World :=
  createAll NewStreamManager World.init
    [("app1", "stream1", "/tmp/test1"), ("app2", "stream2", "/tmp/test2")]

/-- The stream that `CreateStream "testapp" "teststream" "/tmp/test"`
allocates. -/
def freshStream : Stream :=
  { ID := "testapp/teststream"
    AppName := "testapp"
    StreamName := "teststream"
    OutputDir := "/tmp/test"
    FFmpegCmd := none
    FFmpegCtx := none
    FFmpegCancel := none
    IsActive := false
    StartTime := 1
    LastUpdate := 2 }

/-- The parameter map of the default configuration. -/
def sampleParams : List (String × String) :=
  [("video_codec", "libx264"), ("audio_codec", "aac"), ("video_bitrate", "1000k"),
    ("audio_bitrate", "128k"), ("resolution", "1280x720"), ("fps", "30")]

/-- The outcome of a successful `StartFFmpeg` on `freshStream`, stored at
address `0`: the external process got id `4242`. -/
def startedStream : Option Error × Stream × Env :=
  freshStream.StartFFmpeg 0 World.init.env "ffmpeg" sampleParams 4 5 none (.ok 4242)

/-- A registry with one entry, whose stream is active. -/
def activeRegistry : StreamManager × World :=
  ({ streams := (∅ : AList (fun _ : String => Ptr)).insert "testapp/teststream" 0 },
    { heap := [startedStream.2.1], env := startedStream.2.2 })

/-- A method call `stream.StartFFmpeg(...)` through a pointer; on an
unallocated address the world is left as it is. -/
def World.StartFFmpeg (w : World) (p : Ptr) (ffmpegPath : String)
    (params : List (String × String)) (segmentDuration playlistWindow : Int)
    (mkdirErr : Option Error) (startRes : Except Error Nat) : Option Error × World :=
  match w.heap[p]? with
  | some s =>
    let r := s.StartFFmpeg p w.env ffmpegPath params segmentDuration playlistWindow
      mkdirErr startRes
    (r.1, { heap := w.heap.set p r.2.1, env := r.2.2 })
  | none => (none, w)

/-- The goroutine `s.monitorFFmpeg()` of the stream at `p`, once `Wait` has
returned. -/
def World.monitorFFmpeg (w : World) (p : Ptr) (waitErr : Option Error) : World :=
  match w.heap[p]? with
  | some s =>
    let r := s.monitorFFmpeg w.env waitErr
    { heap := w.heap.set p r.1, env := r.2 }
  | none => w

/-- A method call `stream.UpdateLastActivity()` through a pointer. -/
def World.UpdateLastActivity (w : World) (p : Ptr) (now : Time) : World :=
  match w.heap[p]? with
  | some s => { w with heap := w.heap.set p (s.UpdateLastActivity now) }
  | none => w

/-- One call on a manager or on a stream, with the outcomes of the system
calls it makes. -/
inductive Op where
  | CreateStream (appName streamName outputDir : String) (t₁ t₂ : Time)
  | RemoveStream (streamID : String) (killErr : Option Error)
  | GetStream (streamID : String)
  | ListStreams
  | StartFFmpeg (p : Ptr) (ffmpegPath : String) (params : List (String × String))
      (segmentDuration playlistWindow : Int) (mkdirErr : Option Error)
      (startRes : Except Error Nat)
  | Stop (p : Ptr) (killErr : Option Error)
  | monitorFFmpeg (p : Ptr) (waitErr : Option Error)
  | UpdateLastActivity (p : Ptr) (now : Time)

/-- The state after one call. `GetStream` and `ListStreams` only read. -/
def step (st : StreamManager × World) : Op → StreamManager × World
  | .CreateStream appName streamName outputDir t₁ t₂ =>
    (st.1.CreateStream st.2 appName streamName outputDir t₁ t₂).2
  | .RemoveStream streamID killErr => st.1.RemoveStream st.2 streamID killErr
  | .GetStream _ => st
  | .ListStreams => st
  | .StartFFmpeg p ffmpegPath params segmentDuration playlistWindow mkdirErr startRes =>
    (st.1, (st.2.StartFFmpeg p ffmpegPath params segmentDuration playlistWindow
      mkdirErr startRes).2)
  | .Stop p killErr => (st.1, st.2.Stop p killErr)
  | .monitorFFmpeg p waitErr => (st.1, st.2.monitorFFmpeg p waitErr)
  | .UpdateLastActivity p now => (st.1, st.2.UpdateLastActivity p now)

/-- The state reached from `NewStreamManager`, in the world `w₀`, by a
sequence of calls. -/
def run (w₀ : World) (ops : List Op) : StreamManager × World :=
  ops.foldl step (NewStreamManager, w₀)

/-- A client that starts the stream at `self`, stops it and starts it again;
both launches succeed, with process ids `pid₁` and `pid₂`. The result is the
stream and the environment after the second `StartFFmpeg`. -/
def startStopStart (self : Ptr) (s : Stream) (e : Env) (ffmpegPath : String)
    (params : List (String × String)) (segmentDuration playlistWindow : Int)
    (pid₁ pid₂ : Nat) (killErr : Option Error) : Stream × Env :=
  let r₁ := s.StartFFmpeg self e ffmpegPath params segmentDuration playlistWindow none
    (.ok pid₁)
  let r₂ := r₁.2.1.Stop r₁.2.2 killErr
  let r₃ := r₂.1.StartFFmpeg self r₂.2 ffmpegPath params segmentDuration playlistWindow none
    (.ok pid₂)
  (r₃.2.1, r₃.2.2)

end stream

/-! # HLS packaging of a file (package `hls`)

A shallow embedding of `internal/hls/hls.go`. The file system and the
external process are represented by the outcomes of the calls made on them
(`OS`) and by the record of the effects requested (`Sys`). -/

namespace hls

/-- The struct `HLSOptions`. -/
structure HLSOptions where
  SegmentDuration : Int
  PlaylistWindow : Int
  VideoCodec : String
  AudioCodec : String
  VideoBitrate : String
  AudioBitrate : String
  Resolution : String
  FPS : String
  ExtraFlags : List String
  deriving DecidableEq, Repr

/-- `DefaultHLSOptions`. -/
def DefaultHLSOptions : HLSOptions :=
  { SegmentDuration := 4
    PlaylistWindow := 3
    VideoCodec := "libx264"
    AudioCodec := "aac"
    VideoBitrate := "1000k"
    AudioBitrate := "128k"
    Resolution := "1280x720"
    FPS := "30"
    ExtraFlags := [] }

/-- `buildFFmpegArgs`; `strconv.Itoa` is decimal notation. -/
def buildFFmpegArgs (inputPath playlistPath segmentPattern : String) (opts : HLSOptions) :
    List String :=
  let args : List String :=
    [ "-i", inputPath,
      "-c:v", opts.VideoCodec,
      "-c:a", opts.AudioCodec,
      "-b:v", opts.VideoBitrate,
      "-b:a", opts.AudioBitrate,
      "-s", opts.Resolution,
      "-r", opts.FPS,
      "-f", "hls",
      "-hls_time", toString opts.SegmentDuration,
      "-hls_list_size", toString opts.PlaylistWindow,
      "-hls_flags", "delete_segments",
      "-hls_segment_filename", segmentPattern ]
  let args := args ++ opts.ExtraFlags
  let args := args ++ [playlistPath]
  args

/-- What the code reads of an `os.FileInfo`: `IsDir()` and `Size()`, a
length in bytes. -/
structure FileInfo where
  IsDir : Bool
  Size : Nat
  deriving DecidableEq, Repr

/-- An `os.DirEntry`: `Name()` and `IsDir()`. -/
structure DirEntry where
  Name : String
  IsDir : Bool
  deriving DecidableEq, Repr

/-- The outcomes of the calls `CreateHLSWithOptions` makes on the operating
system. -/
structure OS where
  /-- The function `os.Stat`. -/
  stat : String → Except stream.Error FileInfo
  /-- The function `os.MkdirAll`: the error, `none` for `nil`. -/
  mkdirAll : String → Option stream.Error
  /-- Outcome of `cmd.StdoutPipe`. -/
  stdoutPipeErr : Option stream.Error
  /-- Outcome of `cmd.StderrPipe`. -/
  stderrPipeErr : Option stream.Error
  /-- Outcome of `cmd.Start`: an error or the id of the process. -/
  startRes : Except stream.Error Nat
  /-- Outcome of `cmd.Wait`. -/
  waitErr : Option stream.Error
  /-- The function `os.ReadDir`. -/
  readDir : String → Except stream.Error (List DirEntry)
  /-- The function `os.Remove`: the error, `none` for `nil`. -/
  remove : String → Option stream.Error

/-- The record of the effects `CreateHLSWithOptions` has requested. -/
structure Sys where
  /-- Paths for which `os.MkdirAll` succeeded. -/
  mkdirs : List String
  /-- Processes launched by a successful `cmd.Start`: their arguments. -/
  procs : List (List String)
  /-- Goroutines started, by what they run. -/
  goroutines : List String
  /-- Number of calls of the context's cancel function. -/
  cancels : Nat
  /-- Files removed by a successful `os.Remove`. -/
  removed : List String
  /-- Lines written to the logger: level and message. -/
  log : List (String × String)
  deriving DecidableEq, Repr

/-- The call `logger.Infof`, `logger.Warnf` or `logger.Errorf`. -/
def Sys.logf (y : Sys) (level msg : String) : Sys :=
  { y with log := y.log ++ [(level, msg)] }

/-- `validateInput`, given `os.Stat`: the error, `none` for `nil`. -/
def validateInput (stat : String → Except stream.Error FileInfo) (inputPath : String) :
    Option stream.Error :=
  if inputPath = "" then some "input path cannot be empty"
  else
    match stat inputPath with
    | .error err => some ("failed to stat input file: " ++ err)
    | .ok fileInfo =>
      if fileInfo.IsDir then some "input path is a directory, expected a file"
      else if fileInfo.Size = 0 then some "input file is empty"
      else none

/-- The loop of `cleanupOnFailure` over the directory entries. -/
def cleanupEntries (os : OS) (outputDir : String) : List DirEntry → Sys → Sys
  | [], y => y
  | entry :: rest, y =>
    if !entry.IsDir then
      let filePath := stream.filepathJoin [outputDir, entry.Name]
      match os.remove filePath with
      | some err =>
        cleanupEntries os outputDir rest
          (y.logf "error" ("Failed to remove file " ++ filePath ++ " during cleanup: " ++ err))
      | none =>
        cleanupEntries os outputDir rest
          ({ y with removed := y.removed ++ [filePath] }.logf "info"
            ("Removed file during cleanup: " ++ filePath))
    else cleanupEntries os outputDir rest y

/-- `cleanupOnFailure`. -/
def cleanupOnFailure (os : OS) (outputDir : String) (y : Sys) : Sys :=
  let y := y.logf "warning" ("Cleaning up partial output in: " ++ outputDir)
  match os.readDir outputDir with
  | .error err => y.logf "error" ("Failed to read output directory for cleanup: " ++ err)
  | .ok entries => cleanupEntries os outputDir entries y

/-- `CreateHLSWithOptions`: the returned error, `none` for `nil`, and the
effects. The deferred `cancel()` runs on every return after the context has
been created. The goroutines it starts are recorded, not run. -/
def CreateHLSWithOptions (os : OS) (y : Sys) (inputPath outputDir : String)
    (opts : HLSOptions) : Option stream.Error × Sys :=
  match validateInput os.stat inputPath with
  | some err => (some ("input validation failed: " ++ err), y)
  | none =>
    match os.mkdirAll outputDir with
    | some err => (some ("failed to create output directory: " ++ err), y)
    | none =>
      let y : Sys := { y with mkdirs := y.mkdirs ++ [outputDir] }
      let playlistPath := stream.filepathJoin [outputDir, "stream.m3u8"]
      let segmentPattern := stream.filepathJoin [outputDir, "segment_%03d.ts"]
      let args := buildFFmpegArgs inputPath playlistPath segmentPattern opts
      match os.stdoutPipeErr with
      | some err =>
        (some ("failed to create stdout pipe: " ++ err), { y with cancels := y.cancels + 1 })
      | none =>
        match os.stderrPipeErr with
        | some err =>
          (some ("failed to create stderr pipe: " ++ err), { y with cancels := y.cancels + 1 })
        | none =>
          let y : Sys :=
            { y with goroutines := y.goroutines ++
                ["streamOutput STDOUT", "streamOutput STDERR", "setupSignalHandlers"] }
          let y := y.logf "info" ("Starting FFmpeg with args: " ++ " ".intercalate args)
          match os.startRes with
          | .error err =>
            (some ("failed to start FFmpeg: " ++ err), { y with cancels := y.cancels + 1 })
          | .ok _ =>
            let y : Sys := { y with procs := y.procs ++ ["ffmpeg" :: args] }
            match os.waitErr with
            | some err =>
              let y := cleanupOnFailure os outputDir y
              (some ("FFmpeg process failed: " ++ err), { y with cancels := y.cancels + 1 })
            | none =>
              let y := y.logf "info" ("HLS stream created successfully in: " ++ outputDir)
              (none, { y with cancels := y.cancels + 1 })

/-- `CreateHLS`. -/
def CreateHLS (os : OS) (y : Sys) (inputPath outputDir : String)
    (segmentDuration playlistWindow : Int) : Option stream.Error × Sys :=
  let opts := DefaultHLSOptions
  let opts := { opts with SegmentDuration := segmentDuration }
  let opts := { opts with PlaylistWindow := playlistWindow }
  CreateHLSWithOptions os y inputPath outputDir opts

/-- The state before any effect. -/
def Sys.init : Sys :=
  { mkdirs := [], procs := [], goroutines := [], cancels := 0, removed := [], log := [] }

/-- A file system with the directory `.`, the empty file `/tmp/empty.mp4`
and the file `/tmp/valid.mp4` of 18 bytes, and nothing else; the process
starts and exits with status zero. -/
def sampleOS : OS :=
  { stat := fun path =>
      if path = "." then .ok { IsDir := true, Size := 4096 }
      else if path = "/tmp/empty.mp4" then .ok { IsDir := false, Size := 0 }
      else if path = "/tmp/valid.mp4" then .ok { IsDir := false, Size := 18 }
      else .error ("stat " ++ path ++ ": no such file or directory")
    mkdirAll := fun _ => none
    stdoutPipeErr := none
    stderrPipeErr := none
    startRes := .ok 4242
    waitErr := none
    readDir := fun _ => .ok []
    remove := fun _ => none }

end hls

/-! # The control API (package `http`)

A shallow embedding of the stream handlers of `internal/http/server.go`. A
handler receives the path parameter `streamID` and writes one JSON
response. -/

namespace http

/-- A value in a `gin.H` response body. -/
inductive JSON where
  | str (v : String)
  | obj (v : List (String × stream.Value))
  deriving DecidableEq, Repr

/-- What `c.JSON(code, body)` writes. -/
structure Response where
  code : Nat
  body : List (String × JSON)
  deriving DecidableEq, Repr

/-- The struct `Server`: its field `streamManager`. -/
structure Server where
  streamManager : stream.StreamManager

/-- `Server.startStream`. The handler reads `stream.IsActive` through the
pointer; a nil or unallocated pointer is a panic, which `gin.Recovery`
answers with status 500. -/
def Server.startStream (s : Server) (w : stream.World) (streamID : String) :
    Response × stream.World :=
  let r := s.streamManager.GetStream streamID
  if !r.2 then
    ({ code := 404, body := [("error", .str "Stream not found")] }, w)
  else
    match r.1.bind (fun p => w.heap[p]?) with
    | none => ({ code := 500, body := [] }, w)
    | some st =>
      if st.IsActive then
        ({ code := 400, body := [("error", .str "Stream is already active")] }, w)
      else
        ({ code := 200
           body := [("message", .str "Stream started"), ("stream", .obj st.GetStatus)] }, w)

/-- `Server.stopStream`. -/
def Server.stopStream (s : Server) (w : stream.World) (streamID : String)
    (killErr : Option stream.Error) : Response × stream.World :=
  let r := s.streamManager.GetStream streamID
  if !r.2 then
    ({ code := 404, body := [("error", .str "Stream not found")] }, w)
  else
    match r.1 with
    | none => ({ code := 500, body := [] }, w)
    | some p =>
      let w₁ := w.Stop p killErr
      match w₁.heap[p]? with
      | none => ({ code := 500, body := [] }, w₁)
      | some st =>
        ({ code := 200
           body := [("message", .str "Stream stopped"), ("stream", .obj st.GetStatus)] }, w₁)

/-- The server on the registry that holds the one stream
`testapp/teststream`, created and never started. -/
def idleServer : Server × stream.World :=
  ({ streamManager :=
      (stream.NewStreamManager.CreateStream stream.World.init "testapp" "teststream"
        "/tmp/test" 1 2).2.1 },
    (stream.NewStreamManager.CreateStream stream.World.init "testapp" "teststream"
      "/tmp/test" 1 2).2.2)

end http

namespace stream

/-! ## Helper lemmas -/

theorem lookup_none_of_not_mem_keys (sm : StreamManager) (k : String)
    (h : k ∉ sm.streams.keys) : sm.streams.lookup k = none := by
  rw [AList.lookup_eq_none]
  exact fun hk => h (AList.mem_keys.mp hk)

theorem CreateStream_of_lookup_none (sm : StreamManager) (w : World)
    (appName streamName outputDir : String) (t₁ t₂ : Time)
    (h : sm.streams.lookup (appName ++ "/" ++ streamName) = none) :
    sm.CreateStream w appName streamName outputDir t₁ t₂ =
      (w.heap.length,
        { streams := sm.streams.insert (appName ++ "/" ++ streamName) w.heap.length },
        { heap := w.heap ++
            [{ ID := appName ++ "/" ++ streamName
               AppName := appName
               StreamName := streamName
               OutputDir := outputDir
               FFmpegCmd := none
               FFmpegCtx := none
               FFmpegCancel := none
               IsActive := false
               StartTime := t₁
               LastUpdate := t₂ }]
          env := w.env.Infof ("Created stream: " ++ (appName ++ "/" ++ streamName)) }) := by
  simp only [StreamManager.CreateStream, h]

theorem CreateStream_of_lookup_some (sm : StreamManager) (w : World)
    (appName streamName outputDir : String) (t₁ t₂ : Time) (p : Ptr)
    (h : sm.streams.lookup (appName ++ "/" ++ streamName) = some p) :
    sm.CreateStream w appName streamName outputDir t₁ t₂ = (p, sm, w) := by
  simp only [StreamManager.CreateStream, h]

theorem lookup_CreateStream_self (sm : StreamManager) (w : World)
    (appName streamName outputDir : String) (t₁ t₂ : Time) :
    (sm.CreateStream w appName streamName outputDir t₁ t₂).2.1.streams.lookup
        (appName ++ "/" ++ streamName) =
      some (sm.CreateStream w appName streamName outputDir t₁ t₂).1 := by
  cases h : sm.streams.lookup (appName ++ "/" ++ streamName) with
  | none =>
    rw [CreateStream_of_lookup_none sm w appName streamName outputDir t₁ t₂ h]
    exact AList.lookup_insert _
  | some p =>
    rw [CreateStream_of_lookup_some sm w appName streamName outputDir t₁ t₂ p h]
    exact h

theorem createMany_of_lookup_some (appName streamName : String)
    (calls : List (String × Time × Time)) :
    ∀ (sm : StreamManager) (w : World) (p : Ptr),
      sm.streams.lookup (appName ++ "/" ++ streamName) = some p →
      createMany sm w appName streamName calls = (sm, w) := by
  induction calls with
  | nil => intro sm w p _; rfl
  | cons c cs ih =>
    intro sm w p h
    obtain ⟨dir, t₁, t₂⟩ := c
    simp only [createMany]
    rw [CreateStream_of_lookup_some sm w appName streamName dir t₁ t₂ p h]
    exact ih sm w p h

theorem count_keys_of_lookup_some (sm : StreamManager) (k : String) (p : Ptr)
    (h : sm.streams.lookup k = some p) : sm.streams.keys.count k = 1 := by
  apply List.count_eq_one_of_mem sm.streams.keys_nodup
  apply AList.mem_keys.mp
  rw [← AList.lookup_isSome, h]
  rfl

theorem foldl_append_snd (l : List (Sigma fun _ : String => Ptr)) (acc : List Ptr) :
    l.foldl (fun streams kv => streams ++ [kv.2]) acc = acc ++ l.map (fun kv => kv.2) := by
  induction l generalizing acc with
  | nil => simp
  | cons x xs ih => simp [List.foldl_cons, ih]

theorem ListStreams_eq_map (sm : StreamManager) :
    sm.ListStreams = sm.streams.entries.map (fun kv => kv.2) := by
  simp [StreamManager.ListStreams, foldl_append_snd]

theorem mem_ListStreams (sm : StreamManager) (p : Ptr) :
    p ∈ sm.ListStreams ↔ ∃ k, sm.streams.lookup k = some p := by
  rw [ListStreams_eq_map, List.mem_map]
  constructor
  · rintro ⟨⟨k, q⟩, hmem, rfl⟩
    exact ⟨k, Option.mem_def.mp (AList.mem_lookup_iff.mpr hmem)⟩
  · rintro ⟨k, hk⟩
    exact ⟨⟨k, p⟩, AList.mem_lookup_iff.mp (Option.mem_def.mpr hk), rfl⟩

theorem length_ListStreams (sm : StreamManager) :
    sm.ListStreams.length = sm.streams.keys.length := by
  simp [ListStreams_eq_map, AList.keys, List.keys]

theorem nodup_ListStreams (sm : StreamManager) (w : World) (hWF : WF sm w) :
    sm.ListStreams.Nodup := by
  rw [ListStreams_eq_map]
  refine List.Nodup.map_on ?_ sm.streams.nodupKeys.nodup
  rintro ⟨k₁, p₁⟩ h₁ ⟨k₂, p₂⟩ h₂ hp
  simp only at hp
  subst hp
  have l₁ := Option.mem_def.mp (AList.mem_lookup_iff.mpr h₁)
  have l₂ := Option.mem_def.mp (AList.mem_lookup_iff.mpr h₂)
  obtain ⟨s₁, hs₁, hid₁⟩ := hWF k₁ p₁ l₁
  obtain ⟨s₂, hs₂, hid₂⟩ := hWF k₂ p₁ l₂
  rw [hs₁] at hs₂
  cases hs₂
  rw [← hid₁, ← hid₂]

theorem createAll_keys_length (calls : List (String × String × String)) :
    ∀ (sm : StreamManager) (w : World),
      (calls.map (fun c => c.1 ++ "/" ++ c.2.1)).Nodup →
      (∀ c ∈ calls, c.1 ++ "/" ++ c.2.1 ∉ sm.streams.keys) →
      (createAll sm w calls).1.streams.keys.length =
        sm.streams.keys.length + calls.length := by
  induction calls with
  | nil => intro sm w _ _; rfl
  | cons c cs ih =>
    intro sm w hnd hfresh
    obtain ⟨app, name, dir⟩ := c
    have hc : app ++ "/" ++ name ∉ sm.streams.keys := hfresh _ (List.mem_cons_self _ _)
    rw [List.map_cons, List.nodup_cons] at hnd
    simp only [createAll]
    rw [CreateStream_of_lookup_none sm w app name dir 0 0
      (lookup_none_of_not_mem_keys sm _ hc)]
    rw [ih _ _ hnd.2]
    · simp only [AList.keys_insert, List.length_cons, List.erase_of_not_mem hc,
        List.length_cons]
      omega
    · intro c hcmem
      simp only [AList.keys_insert, List.erase_of_not_mem hc, List.mem_cons, not_or]
      refine ⟨?_, hfresh c (List.mem_cons_of_mem _ hcmem)⟩
      intro heq
      exact hnd.1 (List.mem_map.mpr ⟨c, hcmem, heq⟩)

theorem Stop_fst (s : Stream) (e : Env) (killErr : Option Error) :
    (s.Stop e killErr).1 = { s with IsActive := false } := by
  cases hs : s.IsActive with
  | false =>
    simp only [Stream.Stop, hs, Bool.not_false, if_true]
    cases s
    simp only [Stream.mk.injEq, true_and, and_true] at hs ⊢
    exact hs
  | true => simp [Stream.Stop, hs]

theorem Stop_of_not_active (s : Stream) (e : Env) (killErr : Option Error)
    (hs : s.IsActive = false) : s.Stop e killErr = (s, e) := by
  simp [Stream.Stop, hs]

theorem World_Stop_heap (w : World) (p : Ptr) (s : Stream) (killErr : Option Error)
    (h : w.heap[p]? = some s) :
    (w.Stop p killErr).heap = w.heap.set p (s.Stop w.env killErr).1 := by
  simp only [World.Stop, h]

theorem RemoveStream_of_lookup_some (sm : StreamManager) (w : World) (streamID : String)
    (killErr : Option Error) (p : Ptr) (h : sm.streams.lookup streamID = some p) :
    sm.RemoveStream w streamID killErr =
      ({ streams := sm.streams.erase streamID },
        { w.Stop p killErr with
          env := (w.Stop p killErr).env.Infof ("Removed stream: " ++ streamID) }) := by
  simp only [StreamManager.RemoveStream, h]

theorem RemoveStream_of_lookup_none (sm : StreamManager) (w : World) (streamID : String)
    (killErr : Option Error) (h : sm.streams.lookup streamID = none) :
    sm.RemoveStream w streamID killErr = (sm, w) := by
  simp only [StreamManager.RemoveStream, h]

theorem WF_NewStreamManager (w : World) : WF NewStreamManager w := by
  intro k p h
  simp [NewStreamManager] at h

theorem WF_CreateStream (sm : StreamManager) (w : World)
    (appName streamName outputDir : String) (t₁ t₂ : Time) (hWF : WF sm w) :
    WF (sm.CreateStream w appName streamName outputDir t₁ t₂).2.1
      (sm.CreateStream w appName streamName outputDir t₁ t₂).2.2 := by
  cases h : sm.streams.lookup (appName ++ "/" ++ streamName) with
  | some p =>
    rw [CreateStream_of_lookup_some sm w appName streamName outputDir t₁ t₂ p h]
    exact hWF
  | none =>
    rw [CreateStream_of_lookup_none sm w appName streamName outputDir t₁ t₂ h]
    intro k q hk
    by_cases hkid : k = appName ++ "/" ++ streamName
    · subst hkid
      simp only [AList.lookup_insert, Option.some.injEq] at hk
      subst hk
      exact ⟨_, List.getElem?_concat_length _ _, rfl⟩
    · simp only [AList.lookup_insert_ne hkid] at hk
      obtain ⟨s, hs, hid⟩ := hWF k q hk
      have hlt : q < w.heap.length := (List.getElem?_eq_some_iff.mp hs).1
      exact ⟨s, by simp only [List.getElem?_append_left hlt, hs], hid⟩

theorem WF_RemoveStream (sm : StreamManager) (w : World) (streamID : String)
    (killErr : Option Error) (hWF : WF sm w) :
    WF (sm.RemoveStream w streamID killErr).1 (sm.RemoveStream w streamID killErr).2 := by
  cases h : sm.streams.lookup streamID with
  | none =>
    rw [RemoveStream_of_lookup_none sm w streamID killErr h]
    exact hWF
  | some p =>
    rw [RemoveStream_of_lookup_some sm w streamID killErr p h]
    obtain ⟨s, hs, _⟩ := hWF streamID p h
    have hlt : p < w.heap.length := (List.getElem?_eq_some_iff.mp hs).1
    intro k q hk
    have hne : k ≠ streamID := by
      intro heq
      rw [heq] at hk
      simp only [AList.lookup_erase] at hk
      cases hk
    simp only [AList.lookup_erase_ne hne] at hk
    obtain ⟨s₁, hs₁, hid₁⟩ := hWF k q hk
    simp only [World_Stop_heap w p s killErr hs]
    by_cases hqp : q = p
    · subst hqp
      rw [hs] at hs₁
      cases hs₁
      exact ⟨_, List.getElem?_set_self hlt, by rw [Stop_fst]; exact hid₁⟩
    · exact ⟨s₁, by rw [List.getElem?_set_ne (Ne.symm hqp)]; exact hs₁, hid₁⟩

theorem WF_heap_update (sm : StreamManager) (w : World) (p : Ptr) (s s₁ : Stream) (e₁ : Env)
    (hWF : WF sm w) (hs : w.heap[p]? = some s) (hid : s₁.ID = s.ID) :
    WF sm { heap := w.heap.set p s₁, env := e₁ } := by
  intro k q hk
  obtain ⟨s₂, hs₂, hid₂⟩ := hWF k q hk
  have hlt : p < w.heap.length := (List.getElem?_eq_some_iff.mp hs).1
  by_cases hqp : q = p
  · subst hqp
    rw [hs] at hs₂
    cases hs₂
    exact ⟨s₁, List.getElem?_set_self hlt, hid.trans hid₂⟩
  · exact ⟨s₂, by simp only [List.getElem?_set_ne (Ne.symm hqp)]; exact hs₂, hid₂⟩

theorem StartFFmpeg_ID (self : Ptr) (s : Stream) (e : Env) (ffmpegPath : String)
    (params : List (String × String)) (segmentDuration playlistWindow : Int)
    (mkdirErr : Option Error) (startRes : Except Error Nat) :
    (s.StartFFmpeg self e ffmpegPath params segmentDuration playlistWindow mkdirErr
      startRes).2.1.ID = s.ID := by
  cases hs : s.IsActive <;> cases mkdirErr <;> cases startRes <;>
    simp [Stream.StartFFmpeg, hs]

theorem monitorFFmpeg_ID (s : Stream) (e : Env) (waitErr : Option Error) :
    (s.monitorFFmpeg e waitErr).1.ID = s.ID := by
  cases hs : s.IsActive <;> cases waitErr <;> simp [Stream.monitorFFmpeg, hs]

theorem WF_World_Stop (sm : StreamManager) (w : World) (p : Ptr) (killErr : Option Error)
    (hWF : WF sm w) : WF sm (w.Stop p killErr) := by
  cases hs : w.heap[p]? with
  | none => simpa only [World.Stop, hs] using hWF
  | some s =>
    simp only [World.Stop, hs]
    exact WF_heap_update sm w p s _ _ hWF hs (by rw [Stop_fst])

theorem WF_World_StartFFmpeg (sm : StreamManager) (w : World) (p : Ptr) (ffmpegPath : String)
    (params : List (String × String)) (segmentDuration playlistWindow : Int)
    (mkdirErr : Option Error) (startRes : Except Error Nat) (hWF : WF sm w) :
    WF sm (w.StartFFmpeg p ffmpegPath params segmentDuration playlistWindow mkdirErr
      startRes).2 := by
  cases hs : w.heap[p]? with
  | none => simpa only [World.StartFFmpeg, hs] using hWF
  | some s =>
    simp only [World.StartFFmpeg, hs]
    exact WF_heap_update sm w p s _ _ hWF hs (StartFFmpeg_ID _ _ _ _ _ _ _ _ _)

theorem WF_World_monitorFFmpeg (sm : StreamManager) (w : World) (p : Ptr)
    (waitErr : Option Error) (hWF : WF sm w) : WF sm (w.monitorFFmpeg p waitErr) := by
  cases hs : w.heap[p]? with
  | none => simpa only [World.monitorFFmpeg, hs] using hWF
  | some s =>
    simp only [World.monitorFFmpeg, hs]
    exact WF_heap_update sm w p s _ _ hWF hs (monitorFFmpeg_ID _ _ _)

theorem WF_World_UpdateLastActivity (sm : StreamManager) (w : World) (p : Ptr) (now : Time)
    (hWF : WF sm w) : WF sm (w.UpdateLastActivity p now) := by
  cases hs : w.heap[p]? with
  | none => simpa only [World.UpdateLastActivity, hs] using hWF
  | some s =>
    simp only [World.UpdateLastActivity, hs]
    exact WF_heap_update sm w p s _ _ hWF hs rfl

theorem WF_step (st : StreamManager × World) (op : Op) (hWF : WF st.1 st.2) :
    WF (step st op).1 (step st op).2 := by
  cases op with
  | CreateStream appName streamName outputDir t₁ t₂ =>
    exact WF_CreateStream st.1 st.2 appName streamName outputDir t₁ t₂ hWF
  | RemoveStream streamID killErr => exact WF_RemoveStream st.1 st.2 streamID killErr hWF
  | GetStream streamID => exact hWF
  | ListStreams => exact hWF
  | StartFFmpeg p ffmpegPath params segmentDuration playlistWindow mkdirErr startRes =>
    exact WF_World_StartFFmpeg st.1 st.2 p ffmpegPath params segmentDuration playlistWindow
      mkdirErr startRes hWF
  | Stop p killErr => exact WF_World_Stop st.1 st.2 p killErr hWF
  | monitorFFmpeg p waitErr => exact WF_World_monitorFFmpeg st.1 st.2 p waitErr hWF
  | UpdateLastActivity p now => exact WF_World_UpdateLastActivity st.1 st.2 p now hWF

theorem WF_foldl_step (ops : List Op) :
    ∀ st : StreamManager × World, WF st.1 st.2 →
      WF (ops.foldl step st).1 (ops.foldl step st).2 := by
  induction ops with
  | nil => intro st h; exact h
  | cons op rest ih =>
    intro st h
    rw [List.foldl_cons]
    exact ih _ (WF_step st op h)

theorem WF_run (w₀ : World) (ops : List Op) : WF (run w₀ ops).1 (run w₀ ops).2 :=
  WF_foldl_step ops (NewStreamManager, w₀) (WF_NewStreamManager w₀)

theorem run_append_RemoveStream (w₀ : World) (ops : List Op) (streamID : String)
    (killErr : Option Error) :
    run w₀ (ops ++ [Op.RemoveStream streamID killErr]) =
      (run w₀ ops).1.RemoveStream (run w₀ ops).2 streamID killErr := by
  simp [run, List.foldl_append, step]

theorem lookup_RemoveStream_self (sm : StreamManager) (w : World) (streamID : String)
    (killErr : Option Error) :
    (sm.RemoveStream w streamID killErr).1.streams.lookup streamID = none := by
  cases h : sm.streams.lookup streamID with
  | none =>
    rw [RemoveStream_of_lookup_none sm w streamID killErr h]
    exact h
  | some p =>
    rw [RemoveStream_of_lookup_some sm w streamID killErr p h]
    exact AList.lookup_erase _ _

theorem splitSlash_ne_nil (cs : List Char) : splitSlash cs ≠ [] := by
  cases cs with
  | nil => simp [splitSlash]
  | cons c cs =>
    simp only [splitSlash]
    cases h : splitSlash cs with
    | nil => simp
    | cons seg segs => by_cases hc : c = '/' <;> simp [hc]

theorem splitSlash_of_no_slash (x : List Char) (hx : '/' ∉ x) : splitSlash x = [x] := by
  induction x with
  | nil => rfl
  | cons c cs ih =>
    have hc : c ≠ '/' := fun h => hx (h ▸ List.mem_cons_self _ _)
    have hcs : '/' ∉ cs := fun h => hx (List.mem_cons_of_mem _ h)
    simp only [splitSlash, ih hcs, hc, if_false]

theorem splitSlash_append_slash (cs x : List Char) (hx : '/' ∉ x) :
    splitSlash (cs ++ '/' :: x) = splitSlash cs ++ [x] := by
  induction cs with
  | nil => simp [splitSlash, splitSlash_of_no_slash x hx]
  | cons c cs ih =>
    simp only [List.cons_append, splitSlash]
    cases h : splitSlash cs with
    | nil => exact absurd h (splitSlash_ne_nil cs)
    | cons seg segs => by_cases hc : c = '/' <;> simp [hc, ih, h]

theorem cleanSegs_append_plain (rooted : Bool) (x : List Char) (h₀ : x ≠ [])
    (h₁ : x ≠ ['.']) (h₂ : x ≠ ['.', '.']) (l : List (List Char)) :
    ∀ acc, cleanSegs rooted acc (l ++ [x]) = cleanSegs rooted acc l ++ [x] := by
  induction l with
  | nil =>
    intro acc
    simp [cleanSegs, h₀, h₁, h₂]
  | cons seg rest ih =>
    intro acc
    simp only [List.cons_append, cleanSegs]
    split_ifs <;> first | exact ih _ | skip
    all_goals
      cases acc with
      | nil => cases rooted <;> simp [ih]
      | cons top acc₁ => simp only []; split_ifs <;> exact ih _

theorem intercalate_go_append (s x : String) (l : List String) :
    ∀ acc, String.intercalate.go acc s (l ++ [x]) = String.intercalate.go acc s l ++ s ++ x := by
  induction l with
  | nil => intro acc; simp [String.intercalate.go]
  | cons a as ih => intro acc; simp [String.intercalate.go, ih]

theorem intercalate_append_of_ne_nil (s x : String) (l : List String) (hl : l ≠ []) :
    s.intercalate (l ++ [x]) = s.intercalate l ++ s ++ x := by
  cases l with
  | nil => exact absurd rfl hl
  | cons a as => simp [String.intercalate, intercalate_go_append]

theorem filepathJoin_of_clean (d x : String) (hd : filepathClean d = d) (hroot : d ≠ "/")
    (hdot : d ≠ ".") (hslash : '/' ∉ x.data) (h₀ : x.data ≠ []) (h₁ : x.data ≠ ['.'])
    (h₂ : x.data ≠ ['.', '.']) :
    filepathJoin [d, x] = d ++ "/" ++ x := by
  have hne : d ≠ "" := by
    intro h
    rw [h] at hd
    exact absurd hd (by decide)
  have hdata : d.data ≠ [] := fun h => hne (String.ext h)
  have hjoin : filepathJoin [d, x] = filepathClean (d ++ "/" ++ x) := by
    simp [filepathJoin, hne, String.intercalate, String.intercalate.go]
  rw [hjoin]
  have hcat : (d ++ "/" ++ x).data = d.data ++ '/' :: x.data := by
    simp [String.data_append]
  have hcatne : d ++ "/" ++ x ≠ "" := by
    intro h
    have := congrArg String.data h
    rw [hcat] at this
    simp at this
  have hhead : (d.data ++ '/' :: x.data).head? = d.data.head? :=
    List.head?_append_of_ne_nil _ hdata
  simp only [filepathClean, hne, if_false] at hd
  simp only [filepathClean, hcatne, if_false, hcat, hhead, splitSlash_append_slash _ _ hslash,
    cleanSegs_append_plain _ _ h₀ h₁ h₂]
  have hrootval : (if d.data.head? = some '/' then "/" else "") = "/" ∨
      (if d.data.head? = some '/' then "/" else "") = "" := by
    split_ifs
    · exact Or.inl rfl
    · exact Or.inr rfl
  generalize (if d.data.head? = some '/' then "/" else "") = root at hd hrootval ⊢
  generalize cleanSegs (decide (d.data.head? = some '/')) [] (splitSlash d.data)
    = segs at hd ⊢
  have hout : root ++ "/".intercalate (segs.map String.mk) = d := by
    by_cases hempty : root ++ "/".intercalate (segs.map String.mk) = ""
    · rw [if_pos hempty] at hd
      exact absurd hd.symm hdot
    · rw [if_neg hempty] at hd
      exact hd
  have hsegs : segs.map String.mk ≠ [] := by
    intro h
    rw [h] at hout
    simp only [String.intercalate, String.append_empty] at hout
    rcases hrootval with hr | hr
    · exact hroot (hout.symm.trans hr)
    · exact hne (hout.symm.trans hr)
  have hfinal : root ++ "/".intercalate (List.map String.mk (segs ++ [x.data])) =
      d ++ "/" ++ x := by
    rw [List.map_append, List.map_singleton, intercalate_append_of_ne_nil _ _ _ hsegs,
      ← String.append_assoc, ← String.append_assoc, hout]
  rw [hfinal, if_neg hcatne]

theorem slash_mem_streamID (appName streamName : String) :
    '/' ∈ (appName ++ "/" ++ streamName).data := by
  simp [String.data_append]

theorem keys_slash_CreateStream (sm : StreamManager) (w : World)
    (appName streamName outputDir : String) (t₁ t₂ : Time)
    (h : ∀ k, k ∈ sm.streams.keys → '/' ∈ k.data) :
    ∀ k, k ∈ (sm.CreateStream w appName streamName outputDir t₁ t₂).2.1.streams.keys →
      '/' ∈ k.data := by
  cases hl : sm.streams.lookup (appName ++ "/" ++ streamName) with
  | some p =>
    rw [CreateStream_of_lookup_some sm w appName streamName outputDir t₁ t₂ p hl]
    exact h
  | none =>
    rw [CreateStream_of_lookup_none sm w appName streamName outputDir t₁ t₂ hl]
    intro k hk
    simp only [AList.keys_insert, List.mem_cons] at hk
    rcases hk with hk | hk
    · rw [hk]
      exact slash_mem_streamID appName streamName
    · exact h k (List.mem_of_mem_erase hk)

theorem keys_slash_RemoveStream (sm : StreamManager) (w : World) (streamID : String)
    (killErr : Option Error) (h : ∀ k, k ∈ sm.streams.keys → '/' ∈ k.data) :
    ∀ k, k ∈ (sm.RemoveStream w streamID killErr).1.streams.keys → '/' ∈ k.data := by
  cases hl : sm.streams.lookup streamID with
  | none =>
    rw [RemoveStream_of_lookup_none sm w streamID killErr hl]
    exact h
  | some p =>
    rw [RemoveStream_of_lookup_some sm w streamID killErr p hl]
    intro k hk
    simp only [AList.keys_erase] at hk
    exact h k (List.mem_of_mem_erase hk)

theorem keys_slash_step (st : StreamManager × World) (op : Op)
    (h : ∀ k, k ∈ st.1.streams.keys → '/' ∈ k.data) :
    ∀ k, k ∈ (step st op).1.streams.keys → '/' ∈ k.data := by
  cases op with
  | CreateStream appName streamName outputDir t₁ t₂ =>
    exact keys_slash_CreateStream st.1 st.2 appName streamName outputDir t₁ t₂ h
  | RemoveStream streamID killErr => exact keys_slash_RemoveStream st.1 st.2 streamID killErr h
  | GetStream streamID => exact h
  | ListStreams => exact h
  | StartFFmpeg p ffmpegPath params segmentDuration playlistWindow mkdirErr startRes => exact h
  | Stop p killErr => exact h
  | monitorFFmpeg p waitErr => exact h
  | UpdateLastActivity p now => exact h

theorem keys_slash_foldl_step (ops : List Op) :
    ∀ st : StreamManager × World, (∀ k, k ∈ st.1.streams.keys → '/' ∈ k.data) →
      ∀ k, k ∈ (ops.foldl step st).1.streams.keys → '/' ∈ k.data := by
  induction ops with
  | nil => intro st h; exact h
  | cons op rest ih =>
    intro st h
    rw [List.foldl_cons]
    exact ih _ (keys_slash_step st op h)

theorem keys_slash_run (w₀ : World) (ops : List Op) :
    ∀ k, k ∈ (run w₀ ops).1.streams.keys → '/' ∈ k.data :=
  keys_slash_foldl_step ops (NewStreamManager, w₀) (by
    intro k hk
    simp [NewStreamManager] at hk)

/-! ## The registry -/

/-- C1: on a registry that has no key `appName + "/" + streamName`,
`CreateStream` returns a stream whose `ID` is that key, whose `AppName`,
`StreamName` and `OutputDir` are the arguments and which is not active, and
the registry afterwards maps the key to the returned stream. -/
theorem CreateStream_fresh (sm : StreamManager) (w : World)
    (appName streamName outputDir : String) (t₁ t₂ : Time)
    (hfresh : appName ++ "/" ++ streamName ∉ sm.streams.keys) :
    ∃ s : Stream,
      (sm.CreateStream w appName streamName outputDir t₁ t₂).2.2.heap[
        (sm.CreateStream w appName streamName outputDir t₁ t₂).1]? = some s ∧
      s.ID = appName ++ "/" ++ streamName ∧
      s.AppName = appName ∧
      s.StreamName = streamName ∧
      s.OutputDir = outputDir ∧
      s.IsActive = false ∧
      (sm.CreateStream w appName streamName outputDir t₁ t₂).2.1.streams.lookup
        (appName ++ "/" ++ streamName) =
          some (sm.CreateStream w appName streamName outputDir t₁ t₂).1 := by
  rw [CreateStream_of_lookup_none sm w appName streamName outputDir t₁ t₂
    (lookup_none_of_not_mem_keys sm _ hfresh)]
  refine ⟨_, List.getElem?_concat_length _ _, rfl, rfl, rfl, rfl, rfl, ?_⟩
  exact AList.lookup_insert _

/-- Witness for C1: the call of `TestStreamManager_CreateStream`. -/
theorem CreateStream_fresh_witness :
    ∃ s : Stream,
      (NewStreamManager.CreateStream World.init "testapp" "teststream" "/tmp/test" 1 2).2.2.heap[
        (NewStreamManager.CreateStream World.init "testapp" "teststream" "/tmp/test" 1 2).1]?
          = some s ∧
      s.ID = "testapp" ++ "/" ++ "teststream" ∧
      s.AppName = "testapp" ∧
      s.StreamName = "teststream" ∧
      s.OutputDir = "/tmp/test" ∧
      s.IsActive = false ∧
      (NewStreamManager.CreateStream World.init "testapp" "teststream" "/tmp/test" 1 2).2.1.streams.lookup
        ("testapp" ++ "/" ++ "teststream") =
          some (NewStreamManager.CreateStream World.init "testapp" "teststream" "/tmp/test" 1 2).1 :=
  CreateStream_fresh NewStreamManager World.init "testapp" "teststream" "/tmp/test" 1 2
    (by decide)

/-- C2: on a registry that already holds a stream under
`appName + "/" + streamName`, `CreateStream` with any output directory
returns that stream and changes neither the registry (same keys, same
entries) nor any stream (all fields, `OutputDir` and `IsActive` included, are
as before), and so does any further sequence of such calls; after any
non-empty sequence of `CreateStream` calls for one `(appName, streamName)`,
on any registry, exactly one entry for that id exists. -/
theorem CreateStream_idempotent (sm : StreamManager) (w : World)
    (appName streamName outputDir : String) (t₁ t₂ : Time) (p : Ptr)
    (h : sm.streams.lookup (appName ++ "/" ++ streamName) = some p)
    (calls : List (String × Time × Time)) :
    sm.CreateStream w appName streamName outputDir t₁ t₂ = (p, sm, w) ∧
    createMany sm w appName streamName calls = (sm, w) ∧
    sm.streams.keys.count (appName ++ "/" ++ streamName) = 1 ∧
    ∀ (sm₀ : StreamManager) (w₀ : World) (c : String × Time × Time),
      (createMany sm₀ w₀ appName streamName (c :: calls)).1.streams.keys.count
        (appName ++ "/" ++ streamName) = 1 := by
  refine ⟨CreateStream_of_lookup_some sm w appName streamName outputDir t₁ t₂ p h,
    createMany_of_lookup_some appName streamName calls sm w p h,
    count_keys_of_lookup_some sm _ p h, ?_⟩
  intro sm₀ w₀ c
  obtain ⟨dir, u₁, u₂⟩ := c
  have hl := lookup_CreateStream_self sm₀ w₀ appName streamName dir u₁ u₂
  simp only [createMany]
  rw [createMany_of_lookup_some appName streamName calls _ _ _ hl]
  exact count_keys_of_lookup_some _ _ _ hl

/-- Witness for C2: a second `CreateStream` for `testapp/teststream`, with
another output directory, on the registry that the first call produced. -/
theorem CreateStream_idempotent_witness :
    (NewStreamManager.CreateStream World.init "testapp" "teststream" "/tmp/test" 1 2).2.1.CreateStream
        (NewStreamManager.CreateStream World.init "testapp" "teststream" "/tmp/test" 1 2).2.2
        "testapp" "teststream" "/tmp/other" 3 4 =
      (0, (NewStreamManager.CreateStream World.init "testapp" "teststream" "/tmp/test" 1 2).2.1,
        (NewStreamManager.CreateStream World.init "testapp" "teststream" "/tmp/test" 1 2).2.2) :=
  (CreateStream_idempotent
    (NewStreamManager.CreateStream World.init "testapp" "teststream" "/tmp/test" 1 2).2.1
    (NewStreamManager.CreateStream World.init "testapp" "teststream" "/tmp/test" 1 2).2.2
    "testapp" "teststream" "/tmp/other" 3 4 0 (by decide) []).1

/-- C3: `GetStream` returns `(s, true)` exactly when the registry maps the
id to `s` and `(nil, false)` exactly when the id is not a key; it has no
other outcome and, reading only, it leaves the registry as it is; right after
`CreateStream` returned `s`, `GetStream` of the new id returns `(s, true)`. -/
theorem GetStream_spec (sm : StreamManager) (w : World) (streamID : String)
    (appName streamName outputDir : String) (t₁ t₂ : Time) :
    (∀ s : Ptr, sm.GetStream streamID = (some s, true) ↔
      sm.streams.lookup streamID = some s) ∧
    (sm.GetStream streamID = (none, false) ↔ streamID ∉ sm.streams.keys) ∧
    (sm.GetStream streamID = (none, false) ∨
      ∃ s : Ptr, sm.GetStream streamID = (some s, true)) ∧
    (sm.CreateStream w appName streamName outputDir t₁ t₂).2.1.GetStream
        (appName ++ "/" ++ streamName) =
      (some (sm.CreateStream w appName streamName outputDir t₁ t₂).1, true) := by
  refine ⟨?_, ?_, ?_, ?_⟩
  · intro s
    cases h : sm.streams.lookup streamID <;> simp [StreamManager.GetStream, h]
  · rw [← AList.mem_keys, ← AList.lookup_eq_none]
    cases h : sm.streams.lookup streamID <;> simp [StreamManager.GetStream, h]
  · cases h : sm.streams.lookup streamID <;> simp [StreamManager.GetStream, h]
  · simp only [StreamManager.GetStream, lookup_CreateStream_self]

/-- C4: `ListStreams` returns a sequence as long as the registry has keys
that holds each registered stream exactly once (every listed stream is
registered, every registered stream is listed, none is listed twice), and,
reading only, leaves the registry as it is; after `CreateStream` calls for
pairwise distinct ids on an empty registry its length is the number of
calls. -/
theorem ListStreams_spec (sm : StreamManager) (w : World) (hWF : WF sm w)
    (calls : List (String × String × String)) (w₀ : World)
    (hdistinct : (calls.map (fun c => c.1 ++ "/" ++ c.2.1)).Nodup) :
    sm.ListStreams.length = sm.streams.keys.length ∧
    sm.ListStreams.Nodup ∧
    (∀ p : Ptr, p ∈ sm.ListStreams ↔ ∃ k, sm.streams.lookup k = some p) ∧
    (createAll NewStreamManager w₀ calls).1.ListStreams.length = calls.length := by
  refine ⟨length_ListStreams sm, nodup_ListStreams sm w hWF, mem_ListStreams sm, ?_⟩
  rw [length_ListStreams, createAll_keys_length calls NewStreamManager w₀ hdistinct]
  · simp [NewStreamManager]
  · intro c _
    simp [NewStreamManager]

theorem WF_twoStreams : WF twoStreams.1 twoStreams.2 := by
  intro k p h
  have hmem := AList.mem_lookup_iff.mp (Option.mem_def.mpr h)
  have hcases : (⟨k, p⟩ : Sigma fun _ : String => Ptr) ∈
      [⟨"app2/stream2", 1⟩, ⟨"app1/stream1", 0⟩] := hmem
  simp only [List.mem_cons, Sigma.mk.inj_iff, heq_eq_eq, List.mem_singleton,
    List.not_mem_nil, or_false] at hcases
  rcases hcases with ⟨rfl, rfl⟩ | ⟨rfl, rfl⟩
  · exact ⟨_, rfl, rfl⟩
  · exact ⟨_, rfl, rfl⟩

/-- Witness for C4: the registry and the calls of
`TestStreamManager_ListStreams`. -/
theorem ListStreams_spec_witness :
    twoStreams.1.ListStreams.length = twoStreams.1.streams.keys.length ∧
    twoStreams.1.ListStreams.Nodup ∧
    (∀ p : Ptr, p ∈ twoStreams.1.ListStreams ↔ ∃ k, twoStreams.1.streams.lookup k = some p) ∧
    (createAll NewStreamManager World.init
      [("app1", "stream1", "/tmp/test1"), ("app2", "stream2", "/tmp/test2")]).1.ListStreams.length
        = [("app1", "stream1", "/tmp/test1"), ("app2", "stream2", "/tmp/test2")].length :=
  ListStreams_spec twoStreams.1 twoStreams.2 WF_twoStreams
    [("app1", "stream1", "/tmp/test1"), ("app2", "stream2", "/tmp/test2")] World.init
    (by decide)

/-- C5: if the id is present, `RemoveStream` first stops the stream and then
deletes exactly that key. Stopping is the call of `Stop`: the object is what
`Stop` makes of it and is not active afterwards, and the environment is the
one `Stop` leaves, followed by the log line of the removal; for a stream that
was active this means that its cancel function has been called and the kill
of its process requested, and in every case no directory is created, no
process launched and no goroutine started. The id is absent from `GetStream`
and the stream from `ListStreams`, every other key keeps its entry and every
other stream object is unchanged. If the id is absent, `RemoveStream` leaves
the registry, all streams and the environment unchanged. -/
theorem RemoveStream_spec (sm : StreamManager) (w : World) (streamID : String)
    (killErr : Option Error) (hWF : WF sm w) :
    (∀ (p : Ptr) (s : Stream), sm.streams.lookup streamID = some p → w.heap[p]? = some s →
      (sm.RemoveStream w streamID killErr).2.heap[p]? = some (s.Stop w.env killErr).1 ∧
      (s.Stop w.env killErr).1.IsActive = false ∧
      (sm.RemoveStream w streamID killErr).1.streams.keys = sm.streams.keys.erase streamID ∧
      (sm.RemoveStream w streamID killErr).1.GetStream streamID = (none, false) ∧
      p ∉ (sm.RemoveStream w streamID killErr).1.ListStreams ∧
      (∀ k, k ≠ streamID →
        (sm.RemoveStream w streamID killErr).1.streams.lookup k = sm.streams.lookup k) ∧
      (∀ q : Ptr, q ≠ p → (sm.RemoveStream w streamID killErr).2.heap[q]? = w.heap[q]?) ∧
      (sm.RemoveStream w streamID killErr).2.env =
        (s.Stop w.env killErr).2.Infof ("Removed stream: " ++ streamID) ∧
      (sm.RemoveStream w streamID killErr).2.env.cancelled =
        w.env.cancelled ++ (if s.IsActive then s.FFmpegCancel.toList else []) ∧
      (sm.RemoveStream w streamID killErr).2.env.kills =
        w.env.kills ++
          (if s.IsActive then (s.FFmpegCmd.bind fun cmd => cmd.Process).toList else []) ∧
      (sm.RemoveStream w streamID killErr).2.env.procs = w.env.procs ∧
      (sm.RemoveStream w streamID killErr).2.env.mkdirs = w.env.mkdirs ∧
      (sm.RemoveStream w streamID killErr).2.env.monitors = w.env.monitors ∧
      (sm.RemoveStream w streamID killErr).2.env.nextCtx = w.env.nextCtx ∧
      (s.IsActive = true →
        ("info", "Stopped stream: " ++ s.ID) ∈ (sm.RemoveStream w streamID killErr).2.env.log)) ∧
    (streamID ∉ sm.streams.keys → sm.RemoveStream w streamID killErr = (sm, w)) := by
  constructor
  · intro p s hp hs
    rw [RemoveStream_of_lookup_some sm w streamID killErr p hp]
    have hlt : p < w.heap.length := (List.getElem?_eq_some_iff.mp hs).1
    have henv : (w.Stop p killErr).env = (s.Stop w.env killErr).2 := by
      simp only [World.Stop, hs]
    refine ⟨?_, ?_, ?_, ?_, ?_, ?_, ?_, ?_, ?_, ?_, ?_, ?_, ?_, ?_, ?_⟩
    · simp only [World_Stop_heap w p s killErr hs]
      exact List.getElem?_set_self hlt
    · rw [Stop_fst]
    · exact AList.keys_erase _ _
    · simp only [StreamManager.GetStream, AList.lookup_erase]
    · rw [mem_ListStreams]
      rintro ⟨k, hk⟩
      have hne : k ≠ streamID := by
        intro heq
        rw [heq] at hk
        simp only [AList.lookup_erase] at hk
        cases hk
      simp only [AList.lookup_erase_ne hne] at hk
      obtain ⟨s₁, hs₁, hid₁⟩ := hWF k p hk
      obtain ⟨s₂, hs₂, hid₂⟩ := hWF streamID p hp
      rw [hs₁] at hs₂
      cases hs₂
      exact hne (hid₁.symm.trans hid₂)
    · intro k hne
      exact AList.lookup_erase_ne hne
    · intro q hne
      simp only [World_Stop_heap w p s killErr hs]
      exact List.getElem?_set_ne (Ne.symm hne)
    · simp only [henv]
    · simp only [henv]
      cases hact : s.IsActive <;> cases hc : s.FFmpegCancel <;> cases hcmd : s.FFmpegCmd <;>
        cases killErr <;>
        simp [Stream.Stop, hact, hc, hcmd, Env.Infof, Env.Errorf] <;>
        (split <;> simp [Env.Errorf])
    · simp only [henv]
      cases hact : s.IsActive <;> cases hc : s.FFmpegCancel <;> cases hcmd : s.FFmpegCmd <;>
        cases killErr <;>
        simp [Stream.Stop, hact, hc, hcmd, Env.Infof, Env.Errorf] <;>
        (split <;> simp [Env.Errorf, *])
    · simp only [henv]
      cases hact : s.IsActive <;> cases hc : s.FFmpegCancel <;> cases hcmd : s.FFmpegCmd <;>
        cases killErr <;>
        simp [Stream.Stop, hact, hc, hcmd, Env.Infof, Env.Errorf] <;>
        (split <;> simp [Env.Errorf])
    · simp only [henv]
      cases hact : s.IsActive <;> cases hc : s.FFmpegCancel <;> cases hcmd : s.FFmpegCmd <;>
        cases killErr <;>
        simp [Stream.Stop, hact, hc, hcmd, Env.Infof, Env.Errorf] <;>
        (split <;> simp [Env.Errorf])
    · simp only [henv]
      cases hact : s.IsActive <;> cases hc : s.FFmpegCancel <;> cases hcmd : s.FFmpegCmd <;>
        cases killErr <;>
        simp [Stream.Stop, hact, hc, hcmd, Env.Infof, Env.Errorf] <;>
        (split <;> simp [Env.Errorf])
    · simp only [henv]
      cases hact : s.IsActive <;> cases hc : s.FFmpegCancel <;> cases hcmd : s.FFmpegCmd <;>
        cases killErr <;>
        simp [Stream.Stop, hact, hc, hcmd, Env.Infof, Env.Errorf] <;>
        (split <;> simp [Env.Errorf])
    · intro hact
      simp only [henv]
      simp [Stream.Stop, hact, Env.Infof]
  · intro habs
    exact RemoveStream_of_lookup_none sm w streamID killErr
      (lookup_none_of_not_mem_keys sm _ habs)

theorem WF_activeRegistry : WF activeRegistry.1 activeRegistry.2 := by
  intro k p h
  have hmem := AList.mem_lookup_iff.mp (Option.mem_def.mpr h)
  have hcases : (⟨k, p⟩ : Sigma fun _ : String => Ptr) ∈ [⟨"testapp/teststream", 0⟩] := hmem
  simp only [List.mem_singleton, Sigma.mk.inj_iff, heq_eq_eq] at hcases
  obtain ⟨rfl, rfl⟩ := hcases
  exact ⟨_, rfl, rfl⟩

/-- Witness for C5: removing the one, active, stream of `activeRegistry`;
context 0 is cancelled and the kill of process 4242 requested. -/
theorem RemoveStream_spec_witness :
    ((activeRegistry.1.RemoveStream activeRegistry.2 "testapp/teststream" none).2.heap[0]?
      = some (startedStream.2.1.Stop activeRegistry.2.env none).1) ∧
    (startedStream.2.1.Stop activeRegistry.2.env none).1.IsActive = false ∧
    (activeRegistry.1.RemoveStream activeRegistry.2 "testapp/teststream" none).1.GetStream
      "testapp/teststream" = (none, false) ∧
    0 ∉ (activeRegistry.1.RemoveStream activeRegistry.2 "testapp/teststream" none).1.ListStreams ∧
    (activeRegistry.1.RemoveStream activeRegistry.2 "testapp/teststream" none).2.env.cancelled
      = [0] ∧
    (activeRegistry.1.RemoveStream activeRegistry.2 "testapp/teststream" none).2.env.kills
      = [4242] :=
  have h := (RemoveStream_spec activeRegistry.1 activeRegistry.2 "testapp/teststream" none
    WF_activeRegistry).1 0 startedStream.2.1 (by decide) rfl
  ⟨h.1, h.2.1, h.2.2.2.1, h.2.2.2.2.1, h.2.2.2.2.2.2.2.2.1.trans (by decide),
    h.2.2.2.2.2.2.2.2.2.1.trans (by decide)⟩

/-! ## Starting, stopping and monitoring a stream -/

/-- C6: on a stream with `IsActive = true`, `StartFFmpeg` with any arguments
and any outcome of the system calls returns the error "already active" and
has no effect: the stream is returned with every field as before and the
environment is as before (no directory created, no process launched, no
context created, no goroutine started, nothing logged). -/
theorem StartFFmpeg_already_active (self : Ptr) (s : Stream) (e : Env) (ffmpegPath : String)
    (params : List (String × String)) (segmentDuration playlistWindow : Int)
    (mkdirErr : Option Error) (startRes : Except Error Nat)
    (hactive : s.IsActive = true) :
    (s.StartFFmpeg self e ffmpegPath params segmentDuration playlistWindow mkdirErr startRes).1
      = some ("stream " ++ s.ID ++ " is already active") ∧
    (s.StartFFmpeg self e ffmpegPath params segmentDuration playlistWindow mkdirErr startRes).2.1
      = s ∧
    (s.StartFFmpeg self e ffmpegPath params segmentDuration playlistWindow mkdirErr startRes).2.2
      = e := by
  simp [Stream.StartFFmpeg, hactive]

/-- Witness for C6: a second `StartFFmpeg` on the started stream. -/
theorem StartFFmpeg_already_active_witness :
    (startedStream.2.1.StartFFmpeg 0 startedStream.2.2 "ffmpeg" sampleParams 4 5 none
        (.ok 4243)).1 = some ("stream " ++ startedStream.2.1.ID ++ " is already active") ∧
    (startedStream.2.1.StartFFmpeg 0 startedStream.2.2 "ffmpeg" sampleParams 4 5 none
        (.ok 4243)).2.1 = startedStream.2.1 ∧
    (startedStream.2.1.StartFFmpeg 0 startedStream.2.2 "ffmpeg" sampleParams 4 5 none
        (.ok 4243)).2.2 = startedStream.2.2 :=
  StartFFmpeg_already_active 0 startedStream.2.1 startedStream.2.2 "ffmpeg" sampleParams 4 5
    none (.ok 4243) (by decide)

/-- C7, as stated, fails: after `Stop` on the started stream the process
handle `FFmpegCmd` is still set. -/
theorem Stop_clears_handle_counterexample :
    ¬ ((startedStream.2.1.Stop startedStream.2.2 none).1.IsActive = false ∧
       (startedStream.2.1.Stop startedStream.2.2 none).1.FFmpegCmd = none) := by
  decide

/-- C7, amended: `Stop` is total and idempotent. On every stream, with any
outcome of the kill, it leaves `IsActive = false` and every other field,
the process handle `FFmpegCmd` included, as it was; a further `Stop`, and any
number of them, changes neither the stream nor the environment. -/
theorem Stop_idempotent (s : Stream) (e e₁ : Env) (killErr killErr₁ : Option Error) (n : Nat) :
    (s.Stop e killErr).1.IsActive = false ∧
    (s.Stop e killErr).1 = { s with IsActive := false } ∧
    (s.Stop e killErr).1.FFmpegCmd = s.FFmpegCmd ∧
    (s.Stop e killErr).1.Stop e₁ killErr₁ = ((s.Stop e killErr).1, e₁) ∧
    (fun x : Stream × Env => x.1.Stop x.2 killErr₁)^[n] (s.Stop e killErr) = s.Stop e killErr := by
  have hfalse : (s.Stop e killErr).1.IsActive = false := by rw [Stop_fst]
  refine ⟨hfalse, Stop_fst s e killErr, by rw [Stop_fst], Stop_of_not_active _ _ _ hfalse, ?_⟩
  induction n with
  | zero => rfl
  | succ k ih =>
    rw [Function.iterate_succ_apply, Stop_of_not_active _ _ _ hfalse]
    exact ih

/-- C8: on a stream that is not active, if creating the output directory or
launching the process fails, `StartFFmpeg` returns an error, `IsActive` stays
false, no monitor goroutine is started and no process is recorded; the
stream is active afterwards exactly when both calls succeed, and then the
call returns no error and has started one monitor for this stream. -/
theorem StartFFmpeg_failure (self : Ptr) (s : Stream) (e : Env) (ffmpegPath : String)
    (params : List (String × String)) (segmentDuration playlistWindow : Int)
    (mkdirErr : Option Error) (startRes : Except Error Nat)
    (hinactive : s.IsActive = false) :
    ((mkdirErr ≠ none ∨ ∃ err, startRes = .error err) →
      (s.StartFFmpeg self e ffmpegPath params segmentDuration playlistWindow mkdirErr
        startRes).1 ≠ none ∧
      (s.StartFFmpeg self e ffmpegPath params segmentDuration playlistWindow mkdirErr
        startRes).2.1.IsActive = false ∧
      (s.StartFFmpeg self e ffmpegPath params segmentDuration playlistWindow mkdirErr
        startRes).2.2.monitors = e.monitors ∧
      (s.StartFFmpeg self e ffmpegPath params segmentDuration playlistWindow mkdirErr
        startRes).2.2.procs = e.procs) ∧
    ((s.StartFFmpeg self e ffmpegPath params segmentDuration playlistWindow mkdirErr
        startRes).2.1.IsActive = true ↔ mkdirErr = none ∧ ∃ pid, startRes = .ok pid) ∧
    (mkdirErr = none → (∃ pid, startRes = .ok pid) →
      (s.StartFFmpeg self e ffmpegPath params segmentDuration playlistWindow mkdirErr
        startRes).1 = none ∧
      (s.StartFFmpeg self e ffmpegPath params segmentDuration playlistWindow mkdirErr
        startRes).2.2.monitors = e.monitors ++ [self]) := by
  cases mkdirErr with
  | some merr => simp [Stream.StartFFmpeg, hinactive]
  | none =>
    cases startRes with
    | error serr => simp [Stream.StartFFmpeg, hinactive]
    | ok pid => simp [Stream.StartFFmpeg, hinactive, Env.Infof]

/-- Witness for C8: the launch of the process fails on the fresh stream. -/
theorem StartFFmpeg_failure_witness :
    (freshStream.StartFFmpeg 0 World.init.env "ffmpeg" sampleParams 4 5 none
        (.error "executable file not found")).1 ≠ none ∧
    (freshStream.StartFFmpeg 0 World.init.env "ffmpeg" sampleParams 4 5 none
        (.error "executable file not found")).2.1.IsActive = false ∧
    (freshStream.StartFFmpeg 0 World.init.env "ffmpeg" sampleParams 4 5 none
        (.error "executable file not found")).2.2.monitors = World.init.env.monitors ∧
    (freshStream.StartFFmpeg 0 World.init.env "ffmpeg" sampleParams 4 5 none
        (.error "executable file not found")).2.2.procs = World.init.env.procs :=
  (StartFFmpeg_failure 0 freshStream World.init.env "ffmpeg" sampleParams 4 5 none
    (.error "executable file not found") (by decide)).1 (Or.inr ⟨_, rfl⟩)

/-- C9, as stated, fails: the code has no Failed state. The stream that the
monitor step for an exit with status 1 leaves does not differ from the
stream that `Stop` leaves, which is inactive, neither in a field nor in what
`GetStatus` reports. -/
theorem monitorFFmpeg_failed_state_counterexample :
    ¬ ((startedStream.2.1.monitorFFmpeg startedStream.2.2 (some "exit status 1")).1 ≠
        (startedStream.2.1.Stop startedStream.2.2 none).1 ∨
      (startedStream.2.1.monitorFFmpeg startedStream.2.2 (some "exit status 1")).1.GetStatus ≠
        (startedStream.2.1.Stop startedStream.2.2 none).1.GetStatus) := by
  decide

/-- C9, amended: on a stream that is still active, the monitor step for an
exit with an error (a non-zero exit status) moves the stream out of Active
by setting `IsActive = false` and nothing else, which is the state `Stop`
leaves, and logs the error; `GetStatus` then reports `is_active = false`;
`ID`, `AppName`, `StreamName` and `OutputDir` are unchanged. -/
theorem monitorFFmpeg_nonzero_exit (s : Stream) (e e₁ : Env) (err : Error)
    (killErr : Option Error) (hactive : s.IsActive = true) :
    (s.monitorFFmpeg e (some err)).1.IsActive = false ∧
    (s.monitorFFmpeg e (some err)).1.GetStatus.lookup "is_active" = some (.bool false) ∧
    s.GetStatus.lookup "is_active" = some (.bool true) ∧
    (s.monitorFFmpeg e (some err)).1.ID = s.ID ∧
    (s.monitorFFmpeg e (some err)).1.AppName = s.AppName ∧
    (s.monitorFFmpeg e (some err)).1.StreamName = s.StreamName ∧
    (s.monitorFFmpeg e (some err)).1.OutputDir = s.OutputDir ∧
    (s.monitorFFmpeg e (some err)).1 = { s with IsActive := false } ∧
    (s.monitorFFmpeg e (some err)).1 = (s.Stop e₁ killErr).1 ∧
    (s.monitorFFmpeg e (some err)).2 =
      e.Errorf ("FFmpeg process for stream " ++ s.ID ++ " exited with error: " ++ err) := by
  refine ⟨?_, ?_, ?_, ?_, ?_, ?_, ?_, ?_, ?_, ?_⟩ <;>
    simp [Stream.monitorFFmpeg, hactive, Stream.GetStatus, List.lookup, Stop_fst]

/-- Witness for C9, amended: the process of the started stream exits with
status 1. -/
theorem monitorFFmpeg_nonzero_exit_witness :
    (startedStream.2.1.monitorFFmpeg startedStream.2.2 (some "exit status 1")).1.IsActive
      = false ∧
    (startedStream.2.1.monitorFFmpeg startedStream.2.2
      (some "exit status 1")).1.GetStatus.lookup "is_active" = some (.bool false) ∧
    (startedStream.2.1.monitorFFmpeg startedStream.2.2 (some "exit status 1")).1 =
      (startedStream.2.1.Stop startedStream.2.2 none).1 :=
  have h := monitorFFmpeg_nonzero_exit startedStream.2.1 startedStream.2.2 startedStream.2.2
    "exit status 1" none (by decide)
  ⟨h.1, h.2.1, h.2.2.2.2.2.2.2.2.1⟩

/-- C10, as stated, fails: after the monitor step for an exit with status
zero the started stream is still active and still has its process handle. -/
theorem monitorFFmpeg_zero_exit_counterexample :
    ¬ ((startedStream.2.1.monitorFFmpeg startedStream.2.2 none).1.IsActive = false ∧
       (startedStream.2.1.monitorFFmpeg startedStream.2.2 none).1.FFmpegCmd = none) := by
  decide

/-- C10, amended: the monitor step for an exit with status zero, on a stream
that is still active as on any other, does not clear the process handle:
`FFmpegCmd`, the context and cancel function, the timestamps and the
identity fields are as before, and nothing is logged. -/
theorem monitorFFmpeg_zero_exit (s : Stream) (e : Env) :
    (s.monitorFFmpeg e none).1.FFmpegCmd = s.FFmpegCmd ∧
    (s.monitorFFmpeg e none).1.FFmpegCtx = s.FFmpegCtx ∧
    (s.monitorFFmpeg e none).1.FFmpegCancel = s.FFmpegCancel ∧
    (s.monitorFFmpeg e none).1.StartTime = s.StartTime ∧
    (s.monitorFFmpeg e none).1.LastUpdate = s.LastUpdate ∧
    (s.monitorFFmpeg e none).1.ID = s.ID ∧
    (s.monitorFFmpeg e none).1.AppName = s.AppName ∧
    (s.monitorFFmpeg e none).1.StreamName = s.StreamName ∧
    (s.monitorFFmpeg e none).1.OutputDir = s.OutputDir ∧
    (s.monitorFFmpeg e none).2 = e := by
  simp [Stream.monitorFFmpeg]

/-- C11: once `Stop` has completed the stream is not active, and the monitor
step for an exit notification processed afterwards, with any exit result,
changes neither the stream nor the environment: the stream stays inactive.
The same holds for every stream with `IsActive = false`. -/
theorem Stop_wins_over_monitor (s t : Stream) (e e₁ : Env) (killErr waitErr : Option Error) :
    (s.Stop e killErr).1.IsActive = false ∧
    (s.Stop e killErr).1.monitorFFmpeg e₁ waitErr = ((s.Stop e killErr).1, e₁) ∧
    ((s.Stop e killErr).1.monitorFFmpeg e₁ waitErr).1.IsActive = false ∧
    ((t.monitorFFmpeg e₁ waitErr).1.IsActive = true ↔ t.IsActive = true ∧ waitErr = none) := by
  have hfalse : (s.Stop e killErr).1.IsActive = false := by rw [Stop_fst]
  have hmon : (s.Stop e killErr).1.monitorFFmpeg e₁ waitErr = ((s.Stop e killErr).1, e₁) := by
    cases waitErr <;> simp [Stream.monitorFFmpeg, hfalse]
  refine ⟨hfalse, hmon, by rw [hmon]; exact hfalse, ?_⟩
  cases waitErr <;> cases ht : t.IsActive <;> simp [Stream.monitorFFmpeg, ht]

/-- C12: `UpdateLastActivity` sets `LastUpdate` to the reading of the clock
and leaves every other field as it was; `LastUpdate` differs from its
previous value exactly when the reading does, so it differs whenever the
clock has advanced. -/
theorem UpdateLastActivity_spec (s : Stream) (now : Time) :
    (s.UpdateLastActivity now).LastUpdate = now ∧
    (s.UpdateLastActivity now).ID = s.ID ∧
    (s.UpdateLastActivity now).AppName = s.AppName ∧
    (s.UpdateLastActivity now).StreamName = s.StreamName ∧
    (s.UpdateLastActivity now).OutputDir = s.OutputDir ∧
    (s.UpdateLastActivity now).IsActive = s.IsActive ∧
    (s.UpdateLastActivity now).StartTime = s.StartTime ∧
    (s.UpdateLastActivity now).FFmpegCmd = s.FFmpegCmd ∧
    (s.UpdateLastActivity now).FFmpegCtx = s.FFmpegCtx ∧
    (s.UpdateLastActivity now).FFmpegCancel = s.FFmpegCancel ∧
    ((s.UpdateLastActivity now).LastUpdate ≠ s.LastUpdate ↔ s.LastUpdate < now ∨ now < s.LastUpdate) := by
  refine ⟨rfl, rfl, rfl, rfl, rfl, rfl, rfl, rfl, rfl, rfl, ?_⟩
  show now ≠ s.LastUpdate ↔ _
  constructor
  · intro h
    rcases Nat.lt_or_gt_of_ne h with h | h
    · exact Or.inr h
    · exact Or.inl h
  · rintro (h | h) heq <;> (rw [heq] at h; exact Nat.lt_irrefl _ h)

/-- C13: `GetStatus` returns exactly the seven entries `id`, `app_name`,
`stream_name`, `is_active`, `start_time`, `last_update` and `output_dir`,
each holding the value of the corresponding field; no other key is present,
and the result does not depend on the process handle, the context or the
cancel function. It only reads the stream. -/
theorem GetStatus_spec (s : Stream) (cmd : Option Cmd) (ctx cancel : Option Nat) (k : String) :
    s.GetStatus.map Prod.fst =
      ["id", "app_name", "stream_name", "is_active", "start_time", "last_update",
        "output_dir"] ∧
    (s.GetStatus.map Prod.fst).Nodup ∧
    s.GetStatus.length = 7 ∧
    s.GetStatus.lookup "id" = some (.str s.ID) ∧
    s.GetStatus.lookup "app_name" = some (.str s.AppName) ∧
    s.GetStatus.lookup "stream_name" = some (.str s.StreamName) ∧
    s.GetStatus.lookup "is_active" = some (.bool s.IsActive) ∧
    s.GetStatus.lookup "start_time" = some (.time s.StartTime) ∧
    s.GetStatus.lookup "last_update" = some (.time s.LastUpdate) ∧
    s.GetStatus.lookup "output_dir" = some (.str s.OutputDir) ∧
    ((s.GetStatus.lookup k).isSome ↔
      k ∈ ["id", "app_name", "stream_name", "is_active", "start_time", "last_update",
        "output_dir"]) ∧
    ({ s with FFmpegCmd := cmd, FFmpegCtx := ctx, FFmpegCancel := cancel } : Stream).GetStatus
      = s.GetStatus := by
  have hkeys : s.GetStatus.map Prod.fst =
      ["id", "app_name", "stream_name", "is_active", "start_time", "last_update",
        "output_dir"] := rfl
  refine ⟨hkeys, by rw [hkeys]; decide, rfl, ?_, ?_, ?_, ?_, ?_, ?_, ?_, ?_, rfl⟩
  · simp [Stream.GetStatus, List.lookup]
  · simp [Stream.GetStatus, List.lookup]
  · simp [Stream.GetStatus, List.lookup]
  · simp [Stream.GetStatus, List.lookup]
  · simp [Stream.GetStatus, List.lookup]
  · simp [Stream.GetStatus, List.lookup]
  · simp [Stream.GetStatus, List.lookup]
  · simp only [Stream.GetStatus, List.lookup_cons, List.lookup_nil, List.mem_cons,
      List.mem_singleton, List.not_mem_nil, or_false]
    by_cases h1 : k = "id"
    · simp [h1]
    by_cases h2 : k = "app_name"
    · simp [h2]
    by_cases h3 : k = "stream_name"
    · simp [h3]
    by_cases h4 : k = "is_active"
    · simp [h4]
    by_cases h5 : k = "start_time"
    · simp [h5]
    by_cases h6 : k = "last_update"
    · simp [h6]
    by_cases h7 : k = "output_dir"
    · simp [h7]
    simp [h1, h2, h3, h4, h5, h6, h7, beq_eq_false_iff_ne.mpr h1, beq_eq_false_iff_ne.mpr h2,
      beq_eq_false_iff_ne.mpr h3, beq_eq_false_iff_ne.mpr h4, beq_eq_false_iff_ne.mpr h5,
      beq_eq_false_iff_ne.mpr h6, beq_eq_false_iff_ne.mpr h7]

/-- C16, as stated, fails: `CreateStream` with an empty application name is
not rejected; it adds the entry `/stream1` to the empty registry. -/
theorem CreateStream_empty_name_counterexample :
    ¬ ((NewStreamManager.CreateStream World.init "" "stream1" "/tmp/test" 1 2).2.1.streams.keys
        = NewStreamManager.streams.keys) := by
  decide

/-- C16, amended: `CreateStream` validates nothing and returns no error. With
an empty application name or an empty stream name, and the id
`appName + "/" + streamName` not yet a key, it adds exactly that key and
stores a stream with these names, as it does for any other names. -/
theorem CreateStream_no_validation (sm : StreamManager) (w : World)
    (appName streamName outputDir : String) (t₁ t₂ : Time)
    (_hempty : appName = "" ∨ streamName = "")
    (hfresh : appName ++ "/" ++ streamName ∉ sm.streams.keys) :
    (sm.CreateStream w appName streamName outputDir t₁ t₂).2.1.streams.keys =
      (appName ++ "/" ++ streamName) :: sm.streams.keys ∧
    ∃ s : Stream,
      (sm.CreateStream w appName streamName outputDir t₁ t₂).2.2.heap[
        (sm.CreateStream w appName streamName outputDir t₁ t₂).1]? = some s ∧
      s.ID = appName ++ "/" ++ streamName ∧
      s.AppName = appName ∧
      s.StreamName = streamName := by
  rw [CreateStream_of_lookup_none sm w appName streamName outputDir t₁ t₂
    (lookup_none_of_not_mem_keys sm _ hfresh)]
  refine ⟨?_, _, List.getElem?_concat_length _ _, rfl, rfl, rfl⟩
  simp only [AList.keys_insert, List.erase_of_not_mem hfresh]

/-- Witness for C16, amended: both names empty, on the empty registry. -/
theorem CreateStream_no_validation_witness :
    (NewStreamManager.CreateStream World.init "" "" "/tmp/test" 1 2).2.1.streams.keys =
      ("" ++ "/" ++ "") :: NewStreamManager.streams.keys :=
  (CreateStream_no_validation NewStreamManager World.init "" "" "/tmp/test" 1 2
    (Or.inl rfl) (by decide)).1

/-- C19: on a stream that is not active, once the output directory exists,
the command `StartFFmpeg` builds has the arguments below: the codec, bitrate,
resolution and frame rate are the values of `params` under `video_codec`,
`audio_codec`, `video_bitrate`, `audio_bitrate`, `resolution` and `fps`,
the decimal `segmentDuration` follows `-hls_time`, the decimal
`playlistWindow` follows `-hls_list_size`, the path `segment_%03d.ts` in
`OutputDir` follows `-hls_segment_filename` and the path `playlist.m3u8` in
`OutputDir` is the last argument; a successful launch records a process with
these arguments. The two paths are built by `filepath.Join`; for an
`OutputDir` that is a clean path other than `/` and `.` they are `OutputDir`
followed by `/segment_%03d.ts` and by `/playlist.m3u8`. -/
theorem StartFFmpeg_args (self : Ptr) (s : Stream) (e : Env) (ffmpegPath : String)
    (params : List (String × String)) (segmentDuration playlistWindow : Int)
    (startRes : Except Error Nat) (pid : Nat) (hinactive : s.IsActive = false) :
    ffmpegArgs s params segmentDuration playlistWindow =
      [ "-i", "rtmp://localhost/live/" ++ s.StreamName,
        "-c:v", mapIndex params "video_codec",
        "-c:a", mapIndex params "audio_codec",
        "-b:v", mapIndex params "video_bitrate",
        "-b:a", mapIndex params "audio_bitrate",
        "-s", mapIndex params "resolution",
        "-r", mapIndex params "fps",
        "-f", "hls",
        "-hls_time", toString segmentDuration,
        "-hls_list_size", toString playlistWindow,
        "-hls_flags", "delete_segments",
        "-hls_segment_filename", filepathJoin [s.OutputDir, "segment_%03d.ts"],
        filepathJoin [s.OutputDir, "playlist.m3u8"] ] ∧
    (ffmpegArgs s params segmentDuration playlistWindow).getLast? =
      some (filepathJoin [s.OutputDir, "playlist.m3u8"]) ∧
    ((s.StartFFmpeg self e ffmpegPath params segmentDuration playlistWindow none
      startRes).2.1.FFmpegCmd.map fun cmd => cmd.Args) =
      some (ffmpegPath :: ffmpegArgs s params segmentDuration playlistWindow) ∧
    ((s.StartFFmpeg self e ffmpegPath params segmentDuration playlistWindow none
      (.ok pid)).2.2.procs.map fun cmd => cmd.Args) =
      (e.procs.map fun cmd => cmd.Args) ++
        [ffmpegPath :: ffmpegArgs s params segmentDuration playlistWindow] ∧
    (filepathClean s.OutputDir = s.OutputDir → s.OutputDir ≠ "/" → s.OutputDir ≠ "." →
      filepathJoin [s.OutputDir, "segment_%03d.ts"] = s.OutputDir ++ "/segment_%03d.ts" ∧
      filepathJoin [s.OutputDir, "playlist.m3u8"] = s.OutputDir ++ "/playlist.m3u8") := by
  refine ⟨rfl, rfl, ?_, ?_, ?_⟩
  · cases startRes <;> simp [Stream.StartFFmpeg, hinactive]
  · simp [Stream.StartFFmpeg, hinactive, Env.Infof]
  · intro hclean hroot hdot
    constructor
    · rw [filepathJoin_of_clean s.OutputDir "segment_%03d.ts" hclean hroot hdot
        (by decide) (by decide) (by decide) (by decide), String.append_assoc]
      rfl
    · rw [filepathJoin_of_clean s.OutputDir "playlist.m3u8" hclean hroot hdot
        (by decide) (by decide) (by decide) (by decide), String.append_assoc]
      rfl

/-- Witness for C19: the stream `testapp/teststream` with output directory
`/tmp/test`, segment duration 4 and playlist window 5. -/
theorem StartFFmpeg_args_witness :
    ((freshStream.StartFFmpeg 0 World.init.env "ffmpeg" sampleParams 4 5 none
      (.ok 4242)).2.1.FFmpegCmd.map fun cmd => cmd.Args) =
      some
        [ "ffmpeg", "-i", "rtmp://localhost/live/teststream",
          "-c:v", "libx264", "-c:a", "aac", "-b:v", "1000k", "-b:a", "128k",
          "-s", "1280x720", "-r", "30", "-f", "hls", "-hls_time", "4",
          "-hls_list_size", "5", "-hls_flags", "delete_segments",
          "-hls_segment_filename", "/tmp/test/segment_%03d.ts",
          "/tmp/test/playlist.m3u8" ] :=
  (StartFFmpeg_args 0 freshStream World.init.env "ffmpeg" sampleParams 4 5 (.ok 4242) 4242
    (by decide)).2.2.1.trans (by decide)

/-- C20: in every state reached from `NewStreamManager` by any sequence of
`CreateStream`, `RemoveStream`, `GetStream` and `ListStreams` calls with any
arguments, also interleaved with calls on the streams themselves, every
entry of the registry points to a stream whose `ID` is the entry's key; and
after a further `RemoveStream` the removed id is no key of the registry,
`GetStream` does not find it and no listed stream carries it. -/
theorem registry_invariant (w₀ : World) (ops : List Op) (streamID : String)
    (killErr : Option Error) :
    (∀ k p, (run w₀ ops).1.streams.lookup k = some p →
      ∃ s, (run w₀ ops).2.heap[p]? = some s ∧ s.ID = k) ∧
    streamID ∉ (run w₀ (ops ++ [Op.RemoveStream streamID killErr])).1.streams.keys ∧
    (run w₀ (ops ++ [Op.RemoveStream streamID killErr])).1.GetStream streamID = (none, false) ∧
    (∀ q s, q ∈ (run w₀ (ops ++ [Op.RemoveStream streamID killErr])).1.ListStreams →
      (run w₀ (ops ++ [Op.RemoveStream streamID killErr])).2.heap[q]? = some s →
      s.ID ≠ streamID) := by
  have hnone : (run w₀ (ops ++ [Op.RemoveStream streamID killErr])).1.streams.lookup streamID
      = none := by
    rw [run_append_RemoveStream]
    exact lookup_RemoveStream_self _ _ _ _
  refine ⟨WF_run w₀ ops, ?_, ?_, ?_⟩
  · intro hmem
    rw [AList.lookup_eq_none] at hnone
    exact hnone (AList.mem_keys.mpr hmem)
  · simp only [StreamManager.GetStream, hnone]
  · intro q s hq hs hid
    obtain ⟨k, hk⟩ := (mem_ListStreams _ q).mp hq
    obtain ⟨s₁, hs₁, hid₁⟩ := WF_run w₀ (ops ++ [Op.RemoveStream streamID killErr]) k q hk
    rw [hs] at hs₁
    cases hs₁
    rw [← hid₁, hid, hnone] at hk
    cases hk

/-- C21: the stream `testapp/teststream` is started (process 4242), stopped
and started again (process 4243), and is active for the second process. The
monitor step for the exit of the first process, which `Stop` killed, then
finds the stream active and sets `IsActive = false`, although the handle of
the second process is still set and only the first process was ever
killed. -/
theorem stale_exit_marks_restart_inactive :
    (startStopStart 0 freshStream World.init.env "ffmpeg" sampleParams 4 5 4242 4243
      none).1.IsActive = true ∧
    ((startStopStart 0 freshStream World.init.env "ffmpeg" sampleParams 4 5 4242 4243
        none).1.monitorFFmpeg
      (startStopStart 0 freshStream World.init.env "ffmpeg" sampleParams 4 5 4242 4243
        none).2 (some "signal: killed")).1.IsActive = false ∧
    (((startStopStart 0 freshStream World.init.env "ffmpeg" sampleParams 4 5 4242 4243
        none).1.monitorFFmpeg
      (startStopStart 0 freshStream World.init.env "ffmpeg" sampleParams 4 5 4242 4243
        none).2 (some "signal: killed")).1.FFmpegCmd.bind fun cmd => cmd.Process) = some 4243 ∧
    ((startStopStart 0 freshStream World.init.env "ffmpeg" sampleParams 4 5 4242 4243
        none).1.monitorFFmpeg
      (startStopStart 0 freshStream World.init.env "ffmpeg" sampleParams 4 5 4242 4243
        none).2 (some "signal: killed")).2.kills = [4242] := by
  decide

end stream

namespace hls

/-! ## HLS packaging -/

/-- C17: `buildFFmpegArgs` returns the twenty-four fixed arguments, with the
option values in their places and the decimal segment duration and playlist
window, followed by `ExtraFlags` in order and then the playlist path as the
last element; its length is 25 plus the number of extra flags. On the input
of `TestBuildFFmpegArgs` it is the list the test expects. -/
theorem buildFFmpegArgs_spec (inputPath playlistPath segmentPattern : String)
    (opts : HLSOptions) :
    buildFFmpegArgs inputPath playlistPath segmentPattern opts =
      [ "-i", inputPath,
        "-c:v", opts.VideoCodec,
        "-c:a", opts.AudioCodec,
        "-b:v", opts.VideoBitrate,
        "-b:a", opts.AudioBitrate,
        "-s", opts.Resolution,
        "-r", opts.FPS,
        "-f", "hls",
        "-hls_time", toString opts.SegmentDuration,
        "-hls_list_size", toString opts.PlaylistWindow,
        "-hls_flags", "delete_segments",
        "-hls_segment_filename", segmentPattern ] ++ opts.ExtraFlags ++ [playlistPath] ∧
    (buildFFmpegArgs inputPath playlistPath segmentPattern opts).length =
      25 + opts.ExtraFlags.length ∧
    (buildFFmpegArgs inputPath playlistPath segmentPattern opts).getLast? =
      some playlistPath ∧
    ((buildFFmpegArgs inputPath playlistPath segmentPattern opts).drop 24).take
      opts.ExtraFlags.length = opts.ExtraFlags ∧
    buildFFmpegArgs "/path/to/input.mp4" "/path/to/output/stream.m3u8"
        "/path/to/output/segment_%03d.ts"
        { DefaultHLSOptions with ExtraFlags := ["-preset", "fast"] } =
      [ "-i", "/path/to/input.mp4",
        "-c:v", "libx264",
        "-c:a", "aac",
        "-b:v", "1000k",
        "-b:a", "128k",
        "-s", "1280x720",
        "-r", "30",
        "-f", "hls",
        "-hls_time", "4",
        "-hls_list_size", "3",
        "-hls_flags", "delete_segments",
        "-hls_segment_filename", "/path/to/output/segment_%03d.ts",
        "-preset", "fast",
        "/path/to/output/stream.m3u8" ] := by
  refine ⟨rfl, ?_, ?_, ?_, by decide⟩
  · simp only [buildFFmpegArgs, List.length_append, List.length_cons, List.length_nil]
    omega
  · simp only [buildFFmpegArgs]
    exact List.getLast?_concat _
  · simp [buildFFmpegArgs]

/-- C18: when `validateInput` rejects the input path, `CreateHLSWithOptions`
with any options, and `CreateHLS` with any segment duration and playlist
window, return the error "input validation failed" and have no effect: no
directory has been created and no process launched. `validateInput` rejects
the empty path, a path `os.Stat` fails on, a directory and an empty file, and
it accepts a path exactly when the path is not empty and `os.Stat` finds a
file that is no directory and has a size above zero. -/
theorem CreateHLS_rejects_invalid_input (os : OS) (y : Sys) (inputPath outputDir : String)
    (opts : HLSOptions) (segmentDuration playlistWindow : Int) (path : String)
    (hrej : validateInput os.stat inputPath ≠ none) :
    (∃ err, validateInput os.stat inputPath = some err ∧
      (CreateHLSWithOptions os y inputPath outputDir opts).1 =
        some ("input validation failed: " ++ err) ∧
      (CreateHLS os y inputPath outputDir segmentDuration playlistWindow).1 =
        some ("input validation failed: " ++ err)) ∧
    (CreateHLSWithOptions os y inputPath outputDir opts).2 = y ∧
    (CreateHLS os y inputPath outputDir segmentDuration playlistWindow).2 = y ∧
    validateInput os.stat "" = some "input path cannot be empty" ∧
    (∀ err, os.stat path = .error err → validateInput os.stat path ≠ none) ∧
    (∀ fileInfo, os.stat path = .ok fileInfo → fileInfo.IsDir = true →
      validateInput os.stat path ≠ none) ∧
    (∀ fileInfo, os.stat path = .ok fileInfo → fileInfo.Size = 0 →
      validateInput os.stat path ≠ none) ∧
    (validateInput os.stat path = none ↔
      path ≠ "" ∧ ∃ fileInfo, os.stat path = .ok fileInfo ∧ fileInfo.IsDir = false ∧
        0 < fileInfo.Size) := by
  refine ⟨?_, ?_, ?_, ?_, ?_, ?_, ?_, ?_⟩
  · cases h : validateInput os.stat inputPath with
    | none => exact absurd h hrej
    | some err => exact ⟨err, rfl, by simp [CreateHLSWithOptions, h],
        by simp [CreateHLS, CreateHLSWithOptions, h]⟩
  · cases h : validateInput os.stat inputPath with
    | none => exact absurd h hrej
    | some err => simp [CreateHLSWithOptions, h]
  · cases h : validateInput os.stat inputPath with
    | none => exact absurd h hrej
    | some err => simp [CreateHLS, CreateHLSWithOptions, h]
  · simp [validateInput]
  · intro err herr
    by_cases hp : path = "" <;> simp [validateInput, hp, herr]
  · intro fileInfo hfi hdir
    by_cases hp : path = "" <;> simp [validateInput, hp, hfi, hdir]
  · intro fileInfo hfi hsize
    by_cases hp : path = "" <;> cases hdir : fileInfo.IsDir <;>
      simp [validateInput, hp, hfi, hdir, hsize]
  · by_cases hp : path = ""
    · simp [validateInput, hp]
    · cases hst : os.stat path with
      | error err => simp [validateInput, hp, hst]
      | ok fileInfo =>
        cases hdir : fileInfo.IsDir <;> by_cases hsize : fileInfo.Size = 0 <;>
          simp [validateInput, hp, hst, hdir, hsize, Nat.pos_iff_ne_zero]

/-- Witness for C18: the call of `TestCreateHLSWithInvalidInput`, on a file
system without the input file. -/
theorem CreateHLS_rejects_invalid_input_witness :
    (CreateHLS sampleOS Sys.init "/nonexistent/file.mp4" "/tmp/out" 4 3).2 = Sys.init ∧
    (CreateHLSWithOptions sampleOS Sys.init "/nonexistent/file.mp4" "/tmp/out"
      DefaultHLSOptions).2 = Sys.init :=
  have h := CreateHLS_rejects_invalid_input sampleOS Sys.init "/nonexistent/file.mp4"
    "/tmp/out" DefaultHLSOptions 4 3 "/tmp/valid.mp4" (by decide)
  ⟨h.2.2.1, h.2.1⟩

end hls

namespace http

/-! ## The control API -/

/-- C14: `startStream` answers 404 "Stream not found" for every id that is
not in the registry, whatever the registry holds, and 400 "Stream is already
active" for every id whose stream is active; in both cases nothing is
written: the world, and with it the stream, is returned as it was, and the
handler has no access path that changes the registry. -/
theorem startStream_failures (srv : Server) (w : stream.World) (streamID : String) :
    (streamID ∉ srv.streamManager.streams.keys →
      srv.startStream w streamID =
        ({ code := 404, body := [("error", .str "Stream not found")] }, w)) ∧
    (∀ (p : stream.Ptr) (st : stream.Stream),
      srv.streamManager.streams.lookup streamID = some p → w.heap[p]? = some st →
      st.IsActive = true →
      srv.startStream w streamID =
        ({ code := 400, body := [("error", .str "Stream is already active")] }, w)) := by
  constructor
  · intro hmissing
    simp [Server.startStream, stream.StreamManager.GetStream,
      stream.lookup_none_of_not_mem_keys srv.streamManager streamID hmissing]
  · intro p st hpresent hst hactive
    simp [Server.startStream, stream.StreamManager.GetStream, hpresent, hst, hactive]

/-- Witness for C14: any id on the empty registry, an unknown id on the
registry with the one active stream `testapp/teststream`, and that stream's
id. -/
theorem startStream_failures_witness :
    (Server.startStream { streamManager := stream.NewStreamManager } stream.World.init
        "testapp/teststream" =
      ({ code := 404, body := [("error", .str "Stream not found")] }, stream.World.init)) ∧
    (Server.startStream { streamManager := stream.activeRegistry.1 } stream.activeRegistry.2
        "nonexistent" =
      ({ code := 404, body := [("error", .str "Stream not found")] },
        stream.activeRegistry.2)) ∧
    (Server.startStream { streamManager := stream.activeRegistry.1 } stream.activeRegistry.2
        "testapp/teststream" =
      ({ code := 400, body := [("error", .str "Stream is already active")] },
        stream.activeRegistry.2)) :=
  ⟨(startStream_failures { streamManager := stream.NewStreamManager } stream.World.init
      "testapp/teststream").1 (by decide),
    (startStream_failures { streamManager := stream.activeRegistry.1 } stream.activeRegistry.2
      "nonexistent").1 (by decide),
    (startStream_failures { streamManager := stream.activeRegistry.1 } stream.activeRegistry.2
      "testapp/teststream").2 0 stream.startedStream.2.1 (by decide) rfl (by decide)⟩

/-- C15, as stated, fails: called with the id of the one stream of the
registry, created and never started, `startStream` reports success, yet
neither the status it returns nor the stream in the registry afterwards is
active. -/
theorem startStream_success_counterexample :
    ¬ ((idleServer.1.startStream idleServer.2 "testapp/teststream").1.code = 200 →
      (idleServer.1.startStream idleServer.2 "testapp/teststream").1.body.lookup "stream" =
        some (.obj
          [ ("id", .str "testapp/teststream"),
            ("app_name", .str "testapp"),
            ("stream_name", .str "teststream"),
            ("is_active", .bool true),
            ("start_time", .time 1),
            ("last_update", .time 2),
            ("output_dir", .str "/tmp/test") ]) ∧
      ((idleServer.1.startStream idleServer.2 "testapp/teststream").2.heap[0]?.map
        fun st => st.IsActive) = some true) := by
  decide

/-- C15, amended: every key of a registry reached from `NewStreamManager`
contains `/`, and the route parameter `:streamID` is one path segment, which
contains none; so for every id the route delivers, on every reachable
registry, `startStream` reports no success: it answers 404 "Stream not found"
and leaves the world, and with it every stream, as it was. -/
theorem startStream_delivered_id (w₀ : stream.World) (ops : List stream.Op)
    (streamID : String) (hsegment : '/' ∉ streamID.data) :
    (∀ k, k ∈ (stream.run w₀ ops).1.streams.keys → '/' ∈ k.data) ∧
    streamID ∉ (stream.run w₀ ops).1.streams.keys ∧
    Server.startStream { streamManager := (stream.run w₀ ops).1 } (stream.run w₀ ops).2
        streamID =
      ({ code := 404, body := [("error", .str "Stream not found")] },
        (stream.run w₀ ops).2) := by
  have hnot : streamID ∉ (stream.run w₀ ops).1.streams.keys :=
    fun hmem => hsegment (stream.keys_slash_run w₀ ops streamID hmem)
  refine ⟨stream.keys_slash_run w₀ ops, hnot, ?_⟩
  simp [Server.startStream, stream.StreamManager.GetStream,
    stream.lookup_none_of_not_mem_keys _ streamID hnot]

/-- Witness for C15, amended: the registry with the stream
`testapp/teststream`, and the path segment `teststream`. -/
theorem startStream_delivered_id_witness :
    Server.startStream
        { streamManager :=
            (stream.run stream.World.init
              [stream.Op.CreateStream "testapp" "teststream" "/tmp/test" 1 2]).1 }
        (stream.run stream.World.init
          [stream.Op.CreateStream "testapp" "teststream" "/tmp/test" 1 2]).2 "teststream" =
      ({ code := 404, body := [("error", .str "Stream not found")] },
        (stream.run stream.World.init
          [stream.Op.CreateStream "testapp" "teststream" "/tmp/test" 1 2]).2) :=
  (startStream_delivered_id stream.World.init
    [stream.Op.CreateStream "testapp" "teststream" "/tmp/test" 1 2] "teststream"
    (by decide)).2.2

end http
